import Mathlib

/-!
# Debt-to-income calculator: schema, submit handler, classification, result panel

A shallow embedding of `src/components/DebtToIncomeCalculator.tsx`.

The arithmetic of the submit handler is embedded twice.

* Over the rationals, without rounding: the reading "amounts taken as exact
  decimals".  It serves the statements that stipulate exact decimals and the
  statements about labels, colours and validation, which compare amounts and
  never add or divide them.
* In `Binary64`: every `+`, `/` and `*` rounds to the nearest binary64 value and
  overflows to `Infinity`, as JavaScript numbers do.  Statements about the value
  the handler stores are made there.

A stored value is a `JsNumber`: a finite number, kept as the rational it
denotes, or `Infinity`, `-Infinity`, `NaN`.
-/

namespace DebtWise

/-! ## Data model -/

/-- The interface `FormInputs` (lines 10-20): eight numbers and one flag. -/
structure FormInputs where
  monthlyGrossIncome : ℚ
  currentRentMortgage : ℚ
  newMortgagePayment : ℚ
  carPayment : ℚ
  creditCards : ℚ
  studentLoans : ℚ
  personalLoans : ℚ
  otherDebts : ℚ
  includeNewMortgage : Bool
  deriving DecidableEq

/-- The keys of `FormInputs`, in the order of the schema object. -/
inductive FieldName
  | monthlyGrossIncome
  | currentRentMortgage
  | newMortgagePayment
  | carPayment
  | creditCards
  | studentLoans
  | personalLoans
  | otherDebts
  | includeNewMortgage
  deriving DecidableEq, Repr

/-- A JavaScript number as far as this component can produce one: a finite
value, kept as the rational it denotes, or one of the three non-finite values
that a division by zero or an overflow returns. -/
inductive JsNumber
  | finite (q : ℚ)
  | posInf
  | negInf
  | nan
  deriving DecidableEq

/-- The quotient `a / b` of finite operands taken as exact decimals: no
rounding; a zero divisor gives `NaN` or an infinity as in JavaScript. -/
def jsDiv (a b : ℚ) : JsNumber :=
  if b = 0 then
    (if a = 0 then JsNumber.nan else if 0 < a then JsNumber.posInf else JsNumber.negInf)
  else JsNumber.finite (a / b)

/-- The product `x * k` with a finite right operand `k`, taken as exact
decimals: no rounding. -/
def jsMul (x : JsNumber) (k : ℚ) : JsNumber :=
  match x with
  | JsNumber.finite q => JsNumber.finite (q * k)
  | JsNumber.posInf =>
      if k = 0 then JsNumber.nan else if 0 < k then JsNumber.posInf else JsNumber.negInf
  | JsNumber.negInf =>
      if k = 0 then JsNumber.nan else if 0 < k then JsNumber.negInf else JsNumber.posInf
  | JsNumber.nan => JsNumber.nan

/-- JavaScript `x <= k` with a finite right operand `k`; every comparison with
`NaN` is false. -/
def jsLe (x : JsNumber) (k : ℚ) : Bool :=
  match x with
  | JsNumber.finite q => decide (q ≤ k)
  | JsNumber.posInf => false
  | JsNumber.negInf => true
  | JsNumber.nan => false

/-! ## Validation schema (lines 22-32) -/

/-- One issue of a failed parse: the key it belongs to and its message. -/
structure FieldError where
  field : FieldName
  message : String
  deriving DecidableEq

/-- The check `z.number().min(bound, message)` applied to a number: zod's `min`
is inclusive, it raises its issue exactly when the value is below the bound. -/
def numberMin (bound : ℚ) (message : String) (field : FieldName) (value : ℚ) :
    List FieldError :=
  if value < bound then [⟨field, message⟩] else []

/-- The check `z.boolean()` applied to a boolean: no issue. -/
def booleanCheck (_field : FieldName) (_value : Bool) : List FieldError := []

/-- The issues `schema` raises on a record.  `z.object` parses every key in the
order of declaration and gathers the issues of all of them.  The record holds
finite numbers and a boolean, so the type checks of `z.number()` and
`z.boolean()` raise nothing and only the `min` checks can. -/
def schemaIssues (data : FormInputs) : List FieldError :=
  numberMin 1 "Income must be greater than 0" FieldName.monthlyGrossIncome
      data.monthlyGrossIncome ++
  numberMin 0 "Must be 0 or greater" FieldName.currentRentMortgage
      data.currentRentMortgage ++
  numberMin 0 "Must be 0 or greater" FieldName.newMortgagePayment
      data.newMortgagePayment ++
  numberMin 0 "Must be 0 or greater" FieldName.carPayment data.carPayment ++
  numberMin 0 "Must be 0 or greater" FieldName.creditCards data.creditCards ++
  numberMin 0 "Must be 0 or greater" FieldName.studentLoans data.studentLoans ++
  numberMin 0 "Must be 0 or greater" FieldName.personalLoans data.personalLoans ++
  numberMin 0 "Must be 0 or greater" FieldName.otherDebts data.otherDebts ++
  booleanCheck FieldName.includeNewMortgage data.includeNewMortgage

/-- The result of parsing a record with `schema`: the record itself when no
issue was raised, all the issues otherwise. -/
def schema (data : FormInputs) : Except (List FieldError) FormInputs :=
  match schemaIssues data with
  | [] => Except.ok data
  | e :: es => Except.error (e :: es)

/-- The keys that carry an error after parsing. -/
def errorFields (data : FormInputs) : List FieldName :=
  match schema data with
  | Except.ok _ => []
  | Except.error es => es.map FieldError.field

/-- A record is accepted when parsing it succeeds. -/
def accepted (data : FormInputs) : Bool :=
  match schema data with
  | Except.ok _ => true
  | Except.error _ => false

/-! ## Submit handler (lines 53-65) -/

/-- The local constant `totalDebts` of `onSubmit` (lines 54-61), with the
amounts taken as exact decimals: the exact sum. -/
def totalDebts (data : FormInputs) : ℚ :=
  data.currentRentMortgage +
  (if data.includeNewMortgage then data.newMortgagePayment else 0) +
  data.carPayment +
  data.creditCards +
  data.studentLoans +
  data.personalLoans +
  data.otherDebts

/-- The handler `onSubmit` with the amounts taken as exact decimals: the exact
value of the expression it passes to `setRatio` (line 63). -/
def onSubmit (data : FormInputs) : JsNumber :=
  let calculatedRatio := jsMul (jsDiv (totalDebts data) data.monthlyGrossIncome) 100
  calculatedRatio

/-- The wrapper `handleSubmit(onSubmit)` with the zod resolver (lines 36-37 and
76), as a step on the state `ratio` (line 35, `null` at first), with the amounts
taken as exact decimals: the handler runs on the parsed record and stores its
result when parsing succeeds, and the state is left as it was when parsing
fails. -/
def handleSubmit (ratio : Option JsNumber) (data : FormInputs) : Option JsNumber :=
  match schema data with
  | Except.ok parsed => some (onSubmit parsed)
  | Except.error _ => ratio

/-! ## Classification (lines 67-71) -/

/-- The function `getRatioClassification`. -/
def getRatioClassification (ratio : JsNumber) : String :=
  if jsLe ratio 36 then "Good"
  else if jsLe ratio 43 then "Fair"
  else "Poor"

/-! ## Result panel (lines 165-173) -/

/-- The integer `n` of `Number.prototype.toFixed` with two fraction digits, for
a value `x ≥ 0`: the integer for which `n / 100 - x` is closest to zero, the
larger one when two are equally close. -/
def toFixedInt (x : ℚ) : ℕ :=
  ⌊x * 100 + 1 / 2⌋.toNat

/-- The digit string of `toFixed(2)` for the integer `n`: padded with zeros to
at least three digits, with the point before the last two. -/
def toFixedDigits (n : ℕ) : String :=
  let m := (Nat.toDigits 10 n)
  let m := if m.length ≤ 2 then List.replicate (3 - m.length) (Char.ofNat 48) ++ m else m
  String.mk (m.take (m.length - 2)) ++ "." ++ String.mk (m.drop (m.length - 2))

/-- The method call `ratio.toFixed(2)`.  Non-finite values print by name; a
negative value is printed as `-` followed by the rendering of its absolute
value.  From `10 ^ 21` upwards `toFixed` falls back to the exponent form of
`Number.prototype.toString`, which is not modelled: the result is `none` there. -/
def toFixed2 (x : JsNumber) : Option String :=
  match x with
  | JsNumber.nan => some "NaN"
  | JsNumber.posInf => some "Infinity"
  | JsNumber.negInf => some "-Infinity"
  | JsNumber.finite q =>
      let s := if q < 0 then "-" else ""
      let a := if q < 0 then -q else q
      if (10 : ℚ) ^ 21 ≤ a then none
      else some (s ++ toFixedDigits (toFixedInt a))

/-- The number that `toFixed(2)` prints for a finite value: the value rounded
to two decimals. -/
def roundedToCents (q : ℚ) : ℚ :=
  if q < 0 then -((toFixedInt (-q) : ℚ) / 100) else (toFixedInt q : ℚ) / 100

/-- The three colour classes of the classification line (line 170). -/
inductive Colour
  | green
  | yellow
  | red
  deriving DecidableEq, Repr

/-- What the result panel shows. -/
structure ResultPanel where
  percentage : Option String
  colour : Colour
  label : String

/-- The result panel (lines 165-173): nothing while `ratio` is `null`;
otherwise the ratio printed with `toFixed(2)`, the colour class picked by the
inline conditional of line 170, and the label of `getRatioClassification`. -/
def resultPanel (ratio : Option JsNumber) : Option ResultPanel :=
  match ratio with
  | none => none
  | some r =>
      some
        { percentage := (toFixed2 r).map (fun s => s ++ "%")
          colour := if jsLe r 36 then Colour.green
                    else if jsLe r 43 then Colour.yellow
                    else Colour.red
          label := getRatioClassification r }

/-! ## Binary64 arithmetic

The source computes with JavaScript numbers, which are IEEE 754 binary64 values:
every `+`, `/` and `*` returns the exact result rounded to the nearest binary64
value, ties to the even mantissa, and `Infinity` once the rounded result reaches
`2 ^ 1024`.  A finite binary64 value is kept as the rational it denotes; the two
zeros are not told apart (no comparison or label of this component can).  The
definitions above that compute over the rationals without rounding are the
reading "amounts taken as exact decimals"; the ones below are what the code
stores. -/

namespace Binary64

/-- Rounding to the nearest integer, ties to the even one. -/
def roundHalfEven (x : ℚ) : ℤ :=
  if x - ⌊x⌋ < 1 / 2 then ⌊x⌋
  else if 1 / 2 < x - ⌊x⌋ then ⌊x⌋ + 1
  else if ⌊x⌋ % 2 = 0 then ⌊x⌋ else ⌊x⌋ + 1

/-- The exponent of the spacing of the binary64 values around `q`: 52 below the
exponent of `q`, and `-1074` throughout the subnormal range. -/
def ulpExponent (q : ℚ) : ℤ :=
  max (Int.log 2 |q|) (-1022) - 52

/-- The multiple of the spacing nearest to `q`, ties to even, with the exponent
range unbounded above. -/
def rounded (q : ℚ) : ℚ :=
  (roundHalfEven (q / 2 ^ ulpExponent q) : ℚ) * 2 ^ ulpExponent q

/-- The binary64 value of an exact result `q` (round to nearest, ties to even):
the nearest multiple of the spacing, or an infinity when that reaches
`2 ^ 1024`. -/
def round64 (q : ℚ) : JsNumber :=
  if (2 : ℚ) ^ 1024 ≤ |rounded q| then
    (if 0 < q then JsNumber.posInf else JsNumber.negInf)
  else JsNumber.finite (rounded q)

/-- JavaScript `x + y`. -/
def add (x y : JsNumber) : JsNumber :=
  match x, y with
  | JsNumber.finite a, JsNumber.finite b => round64 (a + b)
  | JsNumber.finite _, JsNumber.posInf => JsNumber.posInf
  | JsNumber.finite _, JsNumber.negInf => JsNumber.negInf
  | JsNumber.finite _, JsNumber.nan => JsNumber.nan
  | JsNumber.posInf, JsNumber.finite _ => JsNumber.posInf
  | JsNumber.posInf, JsNumber.posInf => JsNumber.posInf
  | JsNumber.posInf, JsNumber.negInf => JsNumber.nan
  | JsNumber.posInf, JsNumber.nan => JsNumber.nan
  | JsNumber.negInf, JsNumber.finite _ => JsNumber.negInf
  | JsNumber.negInf, JsNumber.posInf => JsNumber.nan
  | JsNumber.negInf, JsNumber.negInf => JsNumber.negInf
  | JsNumber.negInf, JsNumber.nan => JsNumber.nan
  | JsNumber.nan, _ => JsNumber.nan

/-- JavaScript `x / y`.  A zero divisor gives `NaN` for a zero dividend and an
infinity otherwise. -/
def div (x y : JsNumber) : JsNumber :=
  match x, y with
  | JsNumber.finite a, JsNumber.finite b =>
      if b = 0 then
        (if a = 0 then JsNumber.nan else if 0 < a then JsNumber.posInf else JsNumber.negInf)
      else round64 (a / b)
  | JsNumber.finite _, JsNumber.posInf => JsNumber.finite 0
  | JsNumber.finite _, JsNumber.negInf => JsNumber.finite 0
  | JsNumber.finite _, JsNumber.nan => JsNumber.nan
  | JsNumber.posInf, JsNumber.finite b => if 0 ≤ b then JsNumber.posInf else JsNumber.negInf
  | JsNumber.posInf, JsNumber.posInf => JsNumber.nan
  | JsNumber.posInf, JsNumber.negInf => JsNumber.nan
  | JsNumber.posInf, JsNumber.nan => JsNumber.nan
  | JsNumber.negInf, JsNumber.finite b => if 0 ≤ b then JsNumber.negInf else JsNumber.posInf
  | JsNumber.negInf, JsNumber.posInf => JsNumber.nan
  | JsNumber.negInf, JsNumber.negInf => JsNumber.nan
  | JsNumber.negInf, JsNumber.nan => JsNumber.nan
  | JsNumber.nan, _ => JsNumber.nan

/-- JavaScript `x * y`.  Zero times an infinity is `NaN`. -/
def mul (x y : JsNumber) : JsNumber :=
  match x, y with
  | JsNumber.finite a, JsNumber.finite b => round64 (a * b)
  | JsNumber.finite a, JsNumber.posInf =>
      if a = 0 then JsNumber.nan else if 0 < a then JsNumber.posInf else JsNumber.negInf
  | JsNumber.finite a, JsNumber.negInf =>
      if a = 0 then JsNumber.nan else if 0 < a then JsNumber.negInf else JsNumber.posInf
  | JsNumber.finite _, JsNumber.nan => JsNumber.nan
  | JsNumber.posInf, JsNumber.finite b =>
      if b = 0 then JsNumber.nan else if 0 < b then JsNumber.posInf else JsNumber.negInf
  | JsNumber.posInf, JsNumber.posInf => JsNumber.posInf
  | JsNumber.posInf, JsNumber.negInf => JsNumber.negInf
  | JsNumber.posInf, JsNumber.nan => JsNumber.nan
  | JsNumber.negInf, JsNumber.finite b =>
      if b = 0 then JsNumber.nan else if 0 < b then JsNumber.negInf else JsNumber.posInf
  | JsNumber.negInf, JsNumber.posInf => JsNumber.negInf
  | JsNumber.negInf, JsNumber.negInf => JsNumber.posInf
  | JsNumber.negInf, JsNumber.nan => JsNumber.nan
  | JsNumber.nan, _ => JsNumber.nan

/-- The local constant `totalDebts` of `onSubmit` (lines 54-61): the seven terms
added from left to right, each sum rounded. -/
def totalDebts (data : FormInputs) : JsNumber :=
  add (add (add (add (add (add
    (JsNumber.finite data.currentRentMortgage)
    (if data.includeNewMortgage then JsNumber.finite data.newMortgagePayment
      else JsNumber.finite 0))
    (JsNumber.finite data.carPayment))
    (JsNumber.finite data.creditCards))
    (JsNumber.finite data.studentLoans))
    (JsNumber.finite data.personalLoans))
    (JsNumber.finite data.otherDebts)

/-- The handler `onSubmit` (lines 53-65): the value it passes to `setRatio`,
`(totalDebts / data.monthlyGrossIncome) * 100`. -/
def onSubmit (data : FormInputs) : JsNumber :=
  let calculatedRatio :=
    mul (div (totalDebts data) (JsNumber.finite data.monthlyGrossIncome)) (JsNumber.finite 100)
  calculatedRatio

/-- The wrapper `handleSubmit(onSubmit)` with the zod resolver (lines 36-37 and
76), as a step on the state `ratio`: the handler runs on the parsed record and
stores its result when parsing succeeds, the state is left as it was when
parsing fails. -/
def handleSubmit (ratio : Option JsNumber) (data : FormInputs) : Option JsNumber :=
  match schema data with
  | Except.ok parsed => some (onSubmit parsed)
  | Except.error _ => ratio

/-- A rational is a binary64 value when rounding leaves it as it is. -/
def representable (q : ℚ) : Prop :=
  round64 q = JsNumber.finite q

instance representableDecidable (q : ℚ) : Decidable (representable q) :=
  inferInstanceAs (Decidable (round64 q = JsNumber.finite q))

/-- A record the form can hand over: every number in it is a binary64 value. -/
def wellFormed (data : FormInputs) : Prop :=
  representable data.monthlyGrossIncome ∧ representable data.currentRentMortgage ∧
  representable data.newMortgagePayment ∧ representable data.carPayment ∧
  representable data.creditCards ∧ representable data.studentLoans ∧
  representable data.personalLoans ∧ representable data.otherDebts

instance wellFormedDecidable (data : FormInputs) : Decidable (wellFormed data) := by
  unfold wellFormed
  infer_instance

/-- A stored value that is a non-negative number or `Infinity`. -/
def nonNeg (x : JsNumber) : Bool :=
  match x with
  | JsNumber.finite r => decide (0 ≤ r)
  | JsNumber.posInf => true
  | JsNumber.negInf => false
  | JsNumber.nan => false

end Binary64

/-- JavaScript `x <= y` on two stored values; false as soon as one is `NaN`. -/
def jsLeq (x y : JsNumber) : Bool :=
  match x, y with
  | JsNumber.finite a, JsNumber.finite b => decide (a ≤ b)
  | JsNumber.finite _, JsNumber.posInf => true
  | JsNumber.finite _, JsNumber.negInf => false
  | JsNumber.finite _, JsNumber.nan => false
  | JsNumber.posInf, JsNumber.posInf => true
  | JsNumber.posInf, _ => false
  | JsNumber.negInf, JsNumber.nan => false
  | JsNumber.negInf, _ => true
  | JsNumber.nan, _ => false

/-! ## Vocabulary of the specification -/

/-- JavaScript `x < y`, the order in which two stored ratios are compared. -/
def jsLt (x y : JsNumber) : Bool :=
  match x, y with
  | JsNumber.nan, _ => false
  | _, JsNumber.nan => false
  | JsNumber.finite a, JsNumber.finite b => decide (a < b)
  | JsNumber.finite _, JsNumber.posInf => true
  | JsNumber.negInf, JsNumber.finite _ => true
  | JsNumber.negInf, JsNumber.posInf => true
  | _, _ => false

/-- The seven debt fields of the input record. -/
inductive DebtField
  | currentRentMortgage
  | newMortgagePayment
  | carPayment
  | creditCards
  | studentLoans
  | personalLoans
  | otherDebts
  deriving DecidableEq, Repr

/-- The schema key of a debt field. -/
def DebtField.key : DebtField → FieldName
  | DebtField.currentRentMortgage => FieldName.currentRentMortgage
  | DebtField.newMortgagePayment => FieldName.newMortgagePayment
  | DebtField.carPayment => FieldName.carPayment
  | DebtField.creditCards => FieldName.creditCards
  | DebtField.studentLoans => FieldName.studentLoans
  | DebtField.personalLoans => FieldName.personalLoans
  | DebtField.otherDebts => FieldName.otherDebts

/-- Reading a debt field of a record. -/
def getDebt (data : FormInputs) : DebtField → ℚ
  | DebtField.currentRentMortgage => data.currentRentMortgage
  | DebtField.newMortgagePayment => data.newMortgagePayment
  | DebtField.carPayment => data.carPayment
  | DebtField.creditCards => data.creditCards
  | DebtField.studentLoans => data.studentLoans
  | DebtField.personalLoans => data.personalLoans
  | DebtField.otherDebts => data.otherDebts

/-- The record that differs from `data` in one debt field only. -/
def setDebt (data : FormInputs) (f : DebtField) (v : ℚ) : FormInputs :=
  match f with
  | DebtField.currentRentMortgage => { data with currentRentMortgage := v }
  | DebtField.newMortgagePayment => { data with newMortgagePayment := v }
  | DebtField.carPayment => { data with carPayment := v }
  | DebtField.creditCards => { data with creditCards := v }
  | DebtField.studentLoans => { data with studentLoans := v }
  | DebtField.personalLoans => { data with personalLoans := v }
  | DebtField.otherDebts => { data with otherDebts := v }

/-- The record that differs from `data` in the income only. -/
def setIncome (data : FormInputs) (v : ℚ) : FormInputs :=
  { data with monthlyGrossIncome := v }

/-- A debt field is included in the total unless it is the new mortgage payment
of a record whose flag is off. -/
def included (data : FormInputs) (f : DebtField) : Bool :=
  match f with
  | DebtField.newMortgagePayment => data.includeNewMortgage
  | _ => true

/-- All schema keys, in the order of declaration. -/
def allKeys : List FieldName :=
  [FieldName.monthlyGrossIncome, FieldName.currentRentMortgage,
   FieldName.newMortgagePayment, FieldName.carPayment, FieldName.creditCards,
   FieldName.studentLoans, FieldName.personalLoans, FieldName.otherDebts,
   FieldName.includeNewMortgage]

/-- Whether the value a record holds under a key violates the constraint that
the data model of the specification gives for that key: the income must be
greater than 0, a debt field must be 0 or greater, the flag is unconstrained. -/
def violatesSpecBound (data : FormInputs) : FieldName → Bool
  | FieldName.monthlyGrossIncome => decide (data.monthlyGrossIncome ≤ 0)
  | FieldName.currentRentMortgage => decide (data.currentRentMortgage < 0)
  | FieldName.newMortgagePayment => decide (data.newMortgagePayment < 0)
  | FieldName.carPayment => decide (data.carPayment < 0)
  | FieldName.creditCards => decide (data.creditCards < 0)
  | FieldName.studentLoans => decide (data.studentLoans < 0)
  | FieldName.personalLoans => decide (data.personalLoans < 0)
  | FieldName.otherDebts => decide (data.otherDebts < 0)
  | FieldName.includeNewMortgage => false

/-! ## Scenarios of the specification -/

/-- Income 5000, rent 1200, car 300, cards 150, student loans 200, other 50,
flag off. -/
def scenarioA : FormInputs :=
  { monthlyGrossIncome := 5000, currentRentMortgage := 1200, newMortgagePayment := 0,
    carPayment := 300, creditCards := 150, studentLoans := 200, personalLoans := 0,
    otherDebts := 50, includeNewMortgage := false }

/-- Income 4000, rent 1000, new mortgage 500 with the flag on. -/
def scenarioB : FormInputs :=
  { monthlyGrossIncome := 4000, currentRentMortgage := 1000, newMortgagePayment := 500,
    carPayment := 0, creditCards := 0, studentLoans := 0, personalLoans := 0,
    otherDebts := 0, includeNewMortgage := true }

/-- Income 10000 and no debts. -/
def scenarioC : FormInputs :=
  { monthlyGrossIncome := 10000, currentRentMortgage := 0, newMortgagePayment := 0,
    carPayment := 0, creditCards := 0, studentLoans := 0, personalLoans := 0,
    otherDebts := 0, includeNewMortgage := false }

/-- Income 100000 and a rent of 36004: the ratio is 36.004. -/
def scenarioEdge : FormInputs :=
  { monthlyGrossIncome := 100000, currentRentMortgage := 36004, newMortgagePayment := 0,
    carPayment := 0, creditCards := 0, studentLoans := 0, personalLoans := 0,
    otherDebts := 0, includeNewMortgage := false }

/-- Income one half and no debts. -/
def scenarioHalf : FormInputs :=
  { monthlyGrossIncome := 1 / 2, currentRentMortgage := 0, newMortgagePayment := 0,
    carPayment := 0, creditCards := 0, studentLoans := 0, personalLoans := 0,
    otherDebts := 0, includeNewMortgage := false }

/-- Income one half, a car payment of -1 and nothing else. -/
def recordHalfNegCar : FormInputs :=
  { monthlyGrossIncome := 1 / 2, currentRentMortgage := 0, newMortgagePayment := 0,
    carPayment := -1, creditCards := 0, studentLoans := 0, personalLoans := 0,
    otherDebts := 0, includeNewMortgage := false }

/-- Income 3 and a rent of 1: the quotient one third is no binary64 value. -/
def recordThird : FormInputs :=
  { monthlyGrossIncome := 3, currentRentMortgage := 1, newMortgagePayment := 0,
    carPayment := 0, creditCards := 0, studentLoans := 0, personalLoans := 0,
    otherDebts := 0, includeNewMortgage := false }

/-- Income 1 and a rent of `2 ^ 1023`: the product with 100 overflows. -/
def recordOverflow : FormInputs :=
  { monthlyGrossIncome := 1, currentRentMortgage := 2 ^ 1023, newMortgagePayment := 0,
    carPayment := 0, creditCards := 0, studentLoans := 0, personalLoans := 0,
    otherDebts := 0, includeNewMortgage := false }

/-- Income 1000000 and a rent of `2 ^ 53 = 9007199254740992`: adding 1 to this
total is absorbed by the rounding of the sum. -/
def recordAbsorbed : FormInputs :=
  { monthlyGrossIncome := 1000000, currentRentMortgage := 9007199254740992,
    newMortgagePayment := 0, carPayment := 0, creditCards := 0, studentLoans := 0,
    personalLoans := 0, otherDebts := 0, includeNewMortgage := false }

/-- Income 8000000000000002 and a rent of 1: the quotient rounds to the same
binary64 value as for the income 8000000000000003. -/
def recordLargeIncome : FormInputs :=
  { monthlyGrossIncome := 8000000000000002, currentRentMortgage := 1,
    newMortgagePayment := 0, carPayment := 0, creditCards := 0, studentLoans := 0,
    personalLoans := 0, otherDebts := 0, includeNewMortgage := false }

/-- Income 6896295405930486 and a rent of 2482666346134975: the exact ratio is
just above 36. -/
def recordBoundary : FormInputs :=
  { monthlyGrossIncome := 6896295405930486, currentRentMortgage := 2482666346134975,
    newMortgagePayment := 0, carPayment := 0, creditCards := 0, studentLoans := 0,
    personalLoans := 0, otherDebts := 0, includeNewMortgage := false }

/-! ## Theorems -/

/-- C1: the total debt computed in `onSubmit` is the sum of the six always
included fields plus `newMortgagePayment` exactly when `includeNewMortgage` is
true; with the flag false the total does not depend on `newMortgagePayment`,
with the flag true raising `newMortgagePayment` by `D` raises the total by `D`;
and the two example records give 1500 and 1900. -/
theorem totalDebts_conditional_sum :
    (∀ d : FormInputs, totalDebts d =
        d.currentRentMortgage + d.carPayment + d.creditCards + d.studentLoans +
          d.personalLoans + d.otherDebts +
          (if d.includeNewMortgage = true then d.newMortgagePayment else 0)) ∧
    (∀ (d : FormInputs) (m₁ m₂ : ℚ),
        totalDebts { d with newMortgagePayment := m₁, includeNewMortgage := false } =
        totalDebts { d with newMortgagePayment := m₂, includeNewMortgage := false }) ∧
    (∀ (d : FormInputs) (D : ℚ),
        totalDebts { d with newMortgagePayment := d.newMortgagePayment + D,
                            includeNewMortgage := true } =
        totalDebts { d with includeNewMortgage := true } + D) ∧
    totalDebts scenarioB = 1500 ∧ totalDebts scenarioA = 1900 := by
  refine ⟨?_, ?_, ?_, ?_, ?_⟩
  · intro d
    unfold totalDebts
    split_ifs <;> ring
  · intro d m₁ m₂
    simp [totalDebts]
  · intro d D
    simp only [totalDebts, if_true]
    ring
  · norm_num [totalDebts, scenarioB]
  · norm_num [totalDebts, scenarioA]

/-! ### Classification -/

/-- The three labels are pairwise different strings. -/
theorem labels_distinct : "Good" ≠ "Fair" ∧ "Good" ≠ "Poor" ∧ "Fair" ≠ "Poor" := by
  decide

/-- Unfolding of `getRatioClassification` on a finite ratio. -/
theorem getRatioClassification_finite (r : ℚ) :
    getRatioClassification (JsNumber.finite r) =
      if r ≤ 36 then "Good" else if r ≤ 43 then "Fair" else "Poor" := by
  simp [getRatioClassification, jsLe]

/-- The label of a finite ratio, tier by tier. -/
theorem getRatioClassification_cases (r : ℚ) :
    (getRatioClassification (JsNumber.finite r) = "Good" ↔ r ≤ 36) ∧
    (getRatioClassification (JsNumber.finite r) = "Fair" ↔ 36 < r ∧ r ≤ 43) ∧
    (getRatioClassification (JsNumber.finite r) = "Poor" ↔ 43 < r) ∧
    (getRatioClassification (JsNumber.finite r) = "Good" ∨
      getRatioClassification (JsNumber.finite r) = "Fair" ∨
      getRatioClassification (JsNumber.finite r) = "Poor") := by
  obtain ⟨hGF, hGP, hFP⟩ := labels_distinct
  rw [getRatioClassification_finite]
  by_cases h36 : r ≤ 36
  · have h43 : r ≤ 43 := le_trans h36 (by norm_num)
    rw [if_pos h36]
    refine ⟨⟨fun _ => h36, fun _ => rfl⟩, ?_, ?_, Or.inl rfl⟩
    · constructor
      · intro h
        exact absurd h hGF
      · rintro ⟨h, -⟩
        exact absurd h36 (not_le.mpr h)
    · constructor
      · intro h
        exact absurd h hGP
      · intro h
        exact absurd h43 (not_le.mpr h)
  · by_cases h43 : r ≤ 43
    · rw [if_neg h36, if_pos h43]
      refine ⟨?_, ?_, ?_, Or.inr (Or.inl rfl)⟩
      · constructor
        · intro h
          exact absurd h.symm hGF
        · intro h
          exact absurd h h36
      · constructor
        · intro _
          exact ⟨not_le.mp h36, h43⟩
        · intro _
          rfl
      · constructor
        · intro h
          exact absurd h hFP
        · intro h
          exact absurd h43 (not_le.mpr h)
    · rw [if_neg h36, if_neg h43]
      refine ⟨?_, ?_, ?_, Or.inr (Or.inr rfl)⟩
      · constructor
        · intro h
          exact absurd h.symm hGP
        · intro h
          exact absurd h h36
      · constructor
        · intro h
          exact absurd h.symm hFP
        · rintro ⟨-, h⟩
          exact absurd h h43
      · constructor
        · intro _
          exact not_le.mp h43
        · intro _
          rfl

/-- C3: for every ratio `r` the label is "Good" exactly when `r ≤ 36`, "Fair"
exactly when `36 < r ≤ 43` and "Poor" exactly when `43 < r`; one of the three
labels is always returned and they exclude each other; 36 is Good, 36.0001 is
Fair, 43 is Fair and 43.0001 is Poor. -/
theorem getRatioClassification_tiers :
    (∀ r : ℚ,
      (getRatioClassification (JsNumber.finite r) = "Good" ↔ r ≤ 36) ∧
      (getRatioClassification (JsNumber.finite r) = "Fair" ↔ 36 < r ∧ r ≤ 43) ∧
      (getRatioClassification (JsNumber.finite r) = "Poor" ↔ 43 < r) ∧
      (getRatioClassification (JsNumber.finite r) = "Good" ∨
        getRatioClassification (JsNumber.finite r) = "Fair" ∨
        getRatioClassification (JsNumber.finite r) = "Poor")) ∧
    ("Good" ≠ "Fair" ∧ "Good" ≠ "Poor" ∧ "Fair" ≠ "Poor") ∧
    getRatioClassification (JsNumber.finite 36) = "Good" ∧
    getRatioClassification (JsNumber.finite (360001 / 10000)) = "Fair" ∧
    getRatioClassification (JsNumber.finite 43) = "Fair" ∧
    getRatioClassification (JsNumber.finite (430001 / 10000)) = "Poor" := by
  refine ⟨getRatioClassification_cases, labels_distinct, ?_, ?_, ?_, ?_⟩
  · rw [getRatioClassification_finite]; norm_num
  · rw [getRatioClassification_finite]; norm_num
  · rw [getRatioClassification_finite]; norm_num
  · rw [getRatioClassification_finite]; norm_num

/-! ### Validation -/

/-- The issue list decides the outcome of the parse. -/
theorem schema_eq_ok_iff (d : FormInputs) :
    accepted d = true ↔ schemaIssues d = [] := by
  unfold accepted schema
  cases h : schemaIssues d <;> simp

/-- The keys in error are the keys of the issue list, in order. -/
theorem errorFields_eq_map (d : FormInputs) :
    errorFields d = (schemaIssues d).map FieldError.field := by
  unfold errorFields schema
  cases h : schemaIssues d <;> simp

/-- The keys that one `min` check puts in error. -/
theorem numberMin_fields (b : ℚ) (msg : String) (k : FieldName) (v : ℚ) :
    (numberMin b msg k v).map FieldError.field = if v < b then [k] else [] := by
  unfold numberMin
  split_ifs <;> rfl

/-- The keys in error, one conditional per numeric key. -/
theorem errorFields_unfold (d : FormInputs) :
    errorFields d =
      (if d.monthlyGrossIncome < 1 then [FieldName.monthlyGrossIncome] else []) ++
      ((if d.currentRentMortgage < 0 then [FieldName.currentRentMortgage] else []) ++
      ((if d.newMortgagePayment < 0 then [FieldName.newMortgagePayment] else []) ++
      ((if d.carPayment < 0 then [FieldName.carPayment] else []) ++
      ((if d.creditCards < 0 then [FieldName.creditCards] else []) ++
      ((if d.studentLoans < 0 then [FieldName.studentLoans] else []) ++
      ((if d.personalLoans < 0 then [FieldName.personalLoans] else []) ++
      (if d.otherDebts < 0 then [FieldName.otherDebts] else []))))))) := by
  rw [errorFields_eq_map]
  simp only [schemaIssues, booleanCheck, List.map_append, numberMin_fields, List.map_nil,
    List.append_nil, List.append_assoc]

/-- A record is accepted exactly when the income is at least 1 and no debt field
is negative. -/
theorem accepted_iff (d : FormInputs) :
    accepted d = true ↔
      1 ≤ d.monthlyGrossIncome ∧ 0 ≤ d.currentRentMortgage ∧ 0 ≤ d.newMortgagePayment ∧
      0 ≤ d.carPayment ∧ 0 ≤ d.creditCards ∧ 0 ≤ d.studentLoans ∧ 0 ≤ d.personalLoans ∧
      0 ≤ d.otherDebts := by
  rw [schema_eq_ok_iff]
  simp only [schemaIssues, booleanCheck, numberMin, List.append_nil, List.append_eq_nil,
    ite_eq_right_iff, List.cons_ne_nil, imp_false, not_lt, and_assoc]

/-- Membership in the error list of one check. -/
theorem mem_ite_singleton {α : Type} (c : Prop) [Decidable c] (a k : α) :
    k ∈ (if c then [a] else []) ↔ c ∧ k = a := by
  by_cases h : c
  · simp [h]
  · simp [h]

/-- An accepted record has an income of at least 1. -/
theorem income_pos_of_accepted (d : FormInputs) (h : accepted d = true) :
    0 < d.monthlyGrossIncome :=
  lt_of_lt_of_le one_pos ((accepted_iff d).mp h).1

/-- An accepted record has no negative debt field. -/
theorem debts_nonneg_of_accepted (d : FormInputs) (h : accepted d = true) (f : DebtField) :
    0 ≤ getDebt d f := by
  obtain ⟨-, h1, h2, h3, h4, h5, h6, h7⟩ := (accepted_iff d).mp h
  cases f <;> simpa [getDebt]

/-- On an accepted record the wrapper runs the handler on that record. -/
theorem handleSubmit_of_accepted (prev : Option JsNumber) (d : FormInputs)
    (h : accepted d = true) : handleSubmit prev d = some (onSubmit d) := by
  have hs : schema d = Except.ok d := by
    unfold schema
    rw [(schema_eq_ok_iff d).mp h]
  unfold handleSubmit
  rw [hs]

/-- C4 at the failing input: an income of one half is greater than zero, and
the schema rejects it with the message "Income must be greater than 0"; nothing
is computed, the stored ratio stays what it was. -/
theorem schema_rejects_income_half :
    0 < scenarioHalf.monthlyGrossIncome ∧
    schema scenarioHalf =
      Except.error [⟨FieldName.monthlyGrossIncome, "Income must be greater than 0"⟩] ∧
    (∀ prev : Option JsNumber, handleSubmit prev scenarioHalf = prev) := by
  have hs : schema scenarioHalf =
      Except.error [⟨FieldName.monthlyGrossIncome, "Income must be greater than 0"⟩] := by
    norm_num [schema, schemaIssues, numberMin, booleanCheck, scenarioHalf]
  refine ⟨by norm_num [scenarioHalf], hs, ?_⟩
  intro prev
  unfold handleSubmit
  rw [hs]

/-! ### Records that differ in one field -/

/-- Raising a debt field of an accepted record leaves it accepted. -/
theorem accepted_setDebt (d : FormInputs) (f : DebtField) (w : ℚ)
    (hacc : accepted d = true) (hlt : getDebt d f < w) :
    accepted (setDebt d f w) = true := by
  have hw : 0 ≤ w := le_of_lt (lt_of_le_of_lt (debts_nonneg_of_accepted d hacc f) hlt)
  obtain ⟨h0, h1, h2, h3, h4, h5, h6, h7⟩ := (accepted_iff d).mp hacc
  rw [accepted_iff]
  cases f <;> simp only [setDebt] <;> refine ⟨?_, ?_, ?_, ?_, ?_, ?_, ?_, ?_⟩ <;> assumption

/-! ### Result panel -/

/-- The colour class follows the label. -/
theorem colour_matches_label (r : JsNumber) :
    ((if jsLe r 36 = true then Colour.green
        else if jsLe r 43 = true then Colour.yellow else Colour.red) = Colour.green ↔
      getRatioClassification r = "Good") ∧
    ((if jsLe r 36 = true then Colour.green
        else if jsLe r 43 = true then Colour.yellow else Colour.red) = Colour.yellow ↔
      getRatioClassification r = "Fair") ∧
    ((if jsLe r 36 = true then Colour.green
        else if jsLe r 43 = true then Colour.yellow else Colour.red) = Colour.red ↔
      getRatioClassification r = "Poor") := by
  unfold getRatioClassification
  by_cases h36 : jsLe r 36 = true
  · rw [if_pos h36, if_pos h36]
    decide
  · by_cases h43 : jsLe r 43 = true
    · rw [if_neg h36, if_neg h36, if_pos h43, if_pos h43]
      decide
    · rw [if_neg h36, if_neg h36, if_neg h43, if_neg h43]
      decide

/-- Rounding 36.004 to two decimals gives the integer 3600 of hundredths. -/
theorem toFixedInt_edge : toFixedInt (36004 / 1000) = 3600 := by
  have h : ⌊(36004 / 1000 : ℚ) * 100 + 1 / 2⌋ = 3600 := by
    rw [Int.floor_eq_iff]
    constructor <;> norm_num
  unfold toFixedInt
  rw [h]
  rfl

/-- C9: for every stored ratio the panel shows the label that
`getRatioClassification` gives for that very ratio, beside its `toFixed(2)`
rendering, and the colour class is green exactly for "Good", yellow exactly for
"Fair" and red exactly for "Poor"; an income of 100000 with debts of 36004
stores 36.004, which is shown as "36.00%" with the label "Fair", whereas the
value rounded to two decimals, 36, would be labelled "Good". -/
theorem resultPanel_classifies_unrounded :
    (∀ r : JsNumber, ∃ p : ResultPanel,
      resultPanel (some r) = some p ∧
      p.percentage = (toFixed2 r).map (fun t => t ++ "%") ∧
      p.label = getRatioClassification r ∧
      (p.colour = Colour.green ↔ p.label = "Good") ∧
      (p.colour = Colour.yellow ↔ p.label = "Fair") ∧
      (p.colour = Colour.red ↔ p.label = "Poor")) ∧
    handleSubmit none scenarioEdge = some (JsNumber.finite (36004 / 1000)) ∧
    (∃ p : ResultPanel,
      resultPanel (handleSubmit none scenarioEdge) = some p ∧
      p.percentage = some "36.00%" ∧ p.label = "Fair" ∧ p.colour = Colour.yellow) ∧
    roundedToCents (36004 / 1000) = 36 ∧
    getRatioClassification (JsNumber.finite (roundedToCents (36004 / 1000))) = "Good" := by
  have hacc : accepted scenarioEdge = true := by
    rw [accepted_iff]
    norm_num [scenarioEdge]
  have hsub : handleSubmit none scenarioEdge = some (JsNumber.finite (36004 / 1000)) := by
    rw [handleSubmit_of_accepted none scenarioEdge hacc]
    norm_num [onSubmit, jsDiv, jsMul, totalDebts, scenarioEdge]
  have hlabel : getRatioClassification (JsNumber.finite (36004 / 1000)) = "Fair" := by
    rw [getRatioClassification_finite]
    norm_num
  have hround : roundedToCents (36004 / 1000) = 36 := by
    unfold roundedToCents
    rw [toFixedInt_edge]
    norm_num
  refine ⟨?_, hsub, ?_, hround, ?_⟩
  · intro r
    exact ⟨_, rfl, rfl, rfl, colour_matches_label r⟩
  · rw [hsub]
    refine ⟨_, rfl, ?_, hlabel, ?_⟩
    · have hq : ¬ ((36004 / 1000 : ℚ) < 0) := by norm_num
      have hbig : ¬ ((10 : ℚ) ^ 21 ≤ 36004 / 1000) := by norm_num
      simp only [toFixed2, if_neg hq, if_neg hbig, toFixedInt_edge, Option.map_some']
      decide
    · exact (colour_matches_label (JsNumber.finite (36004 / 1000))).2.1.mpr hlabel
  · rw [hround, getRatioClassification_finite]
    norm_num
/-! ### Binary64 rounding -/

namespace Binary64

theorem floor_le_roundHalfEven (x : ℚ) : ⌊x⌋ ≤ roundHalfEven x := by
  unfold roundHalfEven
  split_ifs <;> omega

theorem roundHalfEven_le_floor_succ (x : ℚ) : roundHalfEven x ≤ ⌊x⌋ + 1 := by
  unfold roundHalfEven
  split_ifs <;> omega

theorem roundHalfEven_intCast (n : ℤ) : roundHalfEven (n : ℚ) = n := by
  unfold roundHalfEven
  rw [Int.floor_intCast, sub_self]
  norm_num

theorem roundHalfEven_mono {x y : ℚ} (h : x ≤ y) : roundHalfEven x ≤ roundHalfEven y := by
  have hf : ⌊x⌋ ≤ ⌊y⌋ := Int.floor_mono h
  rcases eq_or_lt_of_le hf with he | hl
  · unfold roundHalfEven
    rw [← he]
    have hxy : x - (⌊x⌋ : ℚ) ≤ y - (⌊x⌋ : ℚ) := sub_le_sub_right h _
    split_ifs <;> first | omega | linarith
  · have h1 := roundHalfEven_le_floor_succ x
    have h2 := floor_le_roundHalfEven y
    omega

theorem roundHalfEven_sub_le (x : ℚ) : |(roundHalfEven x : ℚ) - x| ≤ 1 / 2 := by
  have h1 : (⌊x⌋ : ℚ) ≤ x := Int.floor_le x
  have h2 : x < ⌊x⌋ + 1 := Int.lt_floor_add_one x
  unfold roundHalfEven
  rw [abs_le]
  split_ifs <;> push_cast <;> constructor <;> linarith

theorem roundHalfEven_eq_of_lt {x : ℚ} {m : ℤ} (h1 : (m : ℚ) - 1 / 2 < x)
    (h2 : x < m + 1 / 2) : roundHalfEven x = m := by
  have hA : (m : ℚ) - 1 < x := by linarith
  have hB : x < m + 1 := by linarith
  have hf : ⌊x⌋ = m ∨ ⌊x⌋ = m - 1 := by
    have a : m - 1 ≤ ⌊x⌋ := by
      rw [Int.le_floor]; push_cast; linarith
    have b : ⌊x⌋ < m + 1 := by
      rw [Int.floor_lt]; push_cast; linarith
    omega
  have h3 : (⌊x⌋ : ℚ) ≤ x := Int.floor_le x
  have h4 : x < ⌊x⌋ + 1 := Int.lt_floor_add_one x
  unfold roundHalfEven
  rcases hf with hf | hf
  · rw [hf]
    rw [if_pos (by linarith)]
  · rw [hf]
    push_cast
    rw [if_neg (by linarith), if_pos (by linarith)]
    ring

theorem roundHalfEven_eq_of_tie {x : ℚ} {m : ℤ} (h : x = m + 1 / 2) (he : m % 2 = 0) :
    roundHalfEven x = m := by
  have hf : ⌊x⌋ = m := by
    rw [Int.floor_eq_iff]
    constructor <;> linarith
  unfold roundHalfEven
  rw [hf, if_neg (by linarith), if_neg (by linarith), if_pos he]


theorem two_zpow_pos (e : ℤ) : (0 : ℚ) < 2 ^ e := zpow_pos (by norm_num) e

theorem ulpExponent_ge (q : ℚ) : -1074 ≤ ulpExponent q := by
  unfold ulpExponent
  have := le_max_right (Int.log 2 |q|) (-1022)
  omega

theorem rounded_zero : rounded 0 = 0 := by
  unfold rounded
  rw [zero_div]
  have h : roundHalfEven 0 = 0 := by
    have := roundHalfEven_intCast 0
    simpa using this
  rw [h]
  simp

theorem rounded_nonneg {q : ℚ} (hq : 0 ≤ q) : 0 ≤ rounded q := by
  unfold rounded
  have h0 : (0 : ℚ) ≤ q / 2 ^ ulpExponent q := div_nonneg hq (le_of_lt (two_zpow_pos _))
  have h1 : (0 : ℤ) ≤ roundHalfEven (q / 2 ^ ulpExponent q) := by
    have := roundHalfEven_mono h0
    rw [show ((0 : ℚ)) = ((0 : ℤ) : ℚ) by norm_num, roundHalfEven_intCast] at this
    exact this
  exact mul_nonneg (by exact_mod_cast h1) (le_of_lt (two_zpow_pos _))

/-- For positive `q` the scaled value lies below `2 ^ 53`. -/
theorem scaled_lt {q : ℚ} (hq : 0 < q) : q / 2 ^ ulpExponent q < 2 ^ (53 : ℤ) := by
  rw [div_lt_iff₀ (two_zpow_pos _), ← zpow_add₀ (by norm_num : (2 : ℚ) ≠ 0)]
  have h1 : q < 2 ^ (Int.log 2 |q| + 1) := by
    have := Int.lt_zpow_succ_log_self (b := 2) (by norm_num) |q|
    rw [abs_of_pos hq] at this ⊢
    exact_mod_cast this
  refine lt_of_lt_of_le h1 (zpow_le_zpow_right₀ (by norm_num) ?_)
  unfold ulpExponent
  have := le_max_left (Int.log 2 |q|) (-1022)
  omega

/-- In the normal range the scaled value is at least `2 ^ 52`. -/
theorem le_scaled {q : ℚ} (hq : 0 < q) (hk : -1022 ≤ Int.log 2 |q|) :
    (2 : ℚ) ^ (52 : ℤ) ≤ q / 2 ^ ulpExponent q := by
  rw [le_div_iff₀ (two_zpow_pos _), ← zpow_add₀ (by norm_num : (2 : ℚ) ≠ 0)]
  have h1 : (2 : ℚ) ^ (Int.log 2 |q|) ≤ q := by
    have := Int.zpow_log_le_self (b := 2) (r := |q|) (by norm_num) (abs_pos.mpr (ne_of_gt hq))
    rw [abs_of_pos hq] at this ⊢
    exact_mod_cast this
  refine le_trans (zpow_le_zpow_right₀ (by norm_num) ?_) h1
  unfold ulpExponent
  rw [max_eq_left hk]
  omega

theorem rounded_le_pow {q : ℚ} (hq : 0 < q) : rounded q ≤ 2 ^ (ulpExponent q + 53) := by
  unfold rounded
  have h : roundHalfEven (q / 2 ^ ulpExponent q) ≤ 2 ^ 53 := by
    have := roundHalfEven_mono (le_of_lt (scaled_lt hq))
    rw [show ((2 : ℚ) ^ (53 : ℤ)) = (((2 ^ 53 : ℤ)) : ℚ) by norm_num, roundHalfEven_intCast] at this
    exact this
  have h' : (roundHalfEven (q / 2 ^ ulpExponent q) : ℚ) ≤ 2 ^ (53 : ℤ) := by
    have : ((roundHalfEven (q / 2 ^ ulpExponent q) : ℤ) : ℚ) ≤ ((2 ^ 53 : ℤ) : ℚ) := by
      exact_mod_cast h
    rw [show ((2 : ℚ) ^ (53 : ℤ)) = (((2 ^ 53 : ℤ)) : ℚ) by norm_num]
    exact this
  rw [add_comm, zpow_add₀ (by norm_num : (2 : ℚ) ≠ 0)]
  exact mul_le_mul_of_nonneg_right h' (le_of_lt (two_zpow_pos _))

theorem pow_le_rounded {q : ℚ} (hq : 0 < q) (hk : -1022 ≤ Int.log 2 |q|) :
    (2 : ℚ) ^ (ulpExponent q + 52) ≤ rounded q := by
  unfold rounded
  have h : 2 ^ 52 ≤ roundHalfEven (q / 2 ^ ulpExponent q) := by
    have := roundHalfEven_mono (le_scaled hq hk)
    rw [show ((2 : ℚ) ^ (52 : ℤ)) = (((2 ^ 52 : ℤ)) : ℚ) by norm_num, roundHalfEven_intCast] at this
    exact this
  have h' : (2 : ℚ) ^ (52 : ℤ) ≤ (roundHalfEven (q / 2 ^ ulpExponent q) : ℚ) := by
    have : ((2 ^ 52 : ℤ) : ℚ) ≤ ((roundHalfEven (q / 2 ^ ulpExponent q) : ℤ) : ℚ) := by
      exact_mod_cast h
    rw [show ((2 : ℚ) ^ (52 : ℤ)) = (((2 ^ 52 : ℤ)) : ℚ) by norm_num]
    exact this
  rw [add_comm, zpow_add₀ (by norm_num : (2 : ℚ) ≠ 0)]
  exact mul_le_mul_of_nonneg_right h' (le_of_lt (two_zpow_pos _))

theorem ulpExponent_mono {q₁ q₂ : ℚ} (h1 : 0 < q₁) (h : q₁ ≤ q₂) :
    ulpExponent q₁ ≤ ulpExponent q₂ := by
  have h2 : 0 < q₂ := lt_of_lt_of_le h1 h
  have hl : Int.log 2 |q₁| ≤ Int.log 2 |q₂| := by
    rw [abs_of_pos h1, abs_of_pos h2]
    exact Int.log_mono_right h1 h
  unfold ulpExponent
  have := max_le_max hl (le_refl (-1022 : ℤ))
  omega

theorem rounded_mono_pos {q₁ q₂ : ℚ} (h1 : 0 < q₁) (h : q₁ ≤ q₂) :
    rounded q₁ ≤ rounded q₂ := by
  have h2 : 0 < q₂ := lt_of_lt_of_le h1 h
  rcases eq_or_lt_of_le (ulpExponent_mono h1 h) with he | hl
  · unfold rounded
    rw [← he]
    have hd : q₁ / 2 ^ ulpExponent q₁ ≤ q₂ / 2 ^ ulpExponent q₁ :=
      div_le_div_of_nonneg_right h (le_of_lt (two_zpow_pos _))
    have hm := roundHalfEven_mono hd
    exact mul_le_mul_of_nonneg_right (by exact_mod_cast hm) (le_of_lt (two_zpow_pos _))
  · have hk : -1022 ≤ Int.log 2 |q₂| := by
      have hg := ulpExponent_ge q₁
      by_contra hc
      have : ulpExponent q₂ = -1074 := by
        unfold ulpExponent
        rw [max_eq_right (by omega)]
        norm_num
      omega
    refine le_trans (rounded_le_pow h1) (le_trans ?_ (pow_le_rounded h2 hk))
    exact zpow_le_zpow_right₀ (by norm_num) (by omega)

theorem rounded_mono {q₁ q₂ : ℚ} (h1 : 0 ≤ q₁) (h : q₁ ≤ q₂) : rounded q₁ ≤ rounded q₂ := by
  rcases eq_or_lt_of_le h1 with he | hl
  · rw [← he, rounded_zero]
    exact rounded_nonneg (le_trans h1 h)
  · exact rounded_mono_pos hl h

theorem nonNeg_cases {x : JsNumber} (h : nonNeg x = true) :
    x = JsNumber.posInf ∨ ∃ r : ℚ, 0 ≤ r ∧ x = JsNumber.finite r := by
  cases x with
  | finite r => exact Or.inr ⟨r, by simpa [nonNeg] using h, rfl⟩
  | posInf => exact Or.inl rfl
  | negInf => simp [nonNeg] at h
  | nan => simp [nonNeg] at h

theorem nonNeg_ne_nan {x : JsNumber} (h : nonNeg x = true) : x ≠ JsNumber.nan := by
  intro hx
  rw [hx] at h
  simp [nonNeg] at h

theorem jsLeq_self {x : JsNumber} (h : nonNeg x = true) : jsLeq x x = true := by
  rcases nonNeg_cases h with rfl | ⟨r, -, rfl⟩ <;> simp [jsLeq]

theorem round64_of_nonneg {q : ℚ} (hq : 0 ≤ q) :
    round64 q =
      if (2 : ℚ) ^ 1024 ≤ rounded q then JsNumber.posInf else JsNumber.finite (rounded q) := by
  unfold round64
  rw [abs_of_nonneg (rounded_nonneg hq)]
  by_cases h : (2 : ℚ) ^ 1024 ≤ rounded q
  · have hq0 : 0 < q := by
      rcases eq_or_lt_of_le hq with he | hl
      · rw [← he, rounded_zero] at h
        norm_num at h
      · exact hl
    rw [if_pos h, if_pos h, if_pos hq0]
  · rw [if_neg h, if_neg h]

theorem round64_zero : round64 0 = JsNumber.finite 0 := by
  rw [round64_of_nonneg (le_refl 0), rounded_zero]
  norm_num

theorem round64_nonNeg {q : ℚ} (hq : 0 ≤ q) : nonNeg (round64 q) = true := by
  rw [round64_of_nonneg hq]
  split_ifs
  · rfl
  · simpa [nonNeg] using rounded_nonneg hq

theorem round64_mono {q₁ q₂ : ℚ} (h1 : 0 ≤ q₁) (h : q₁ ≤ q₂) :
    jsLeq (round64 q₁) (round64 q₂) = true := by
  have hm := rounded_mono h1 h
  rw [round64_of_nonneg h1, round64_of_nonneg (le_trans h1 h)]
  by_cases a : (2 : ℚ) ^ 1024 ≤ rounded q₁
  · have b : (2 : ℚ) ^ 1024 ≤ rounded q₂ := le_trans a hm
    rw [if_pos a, if_pos b]
    rfl
  · by_cases b : (2 : ℚ) ^ 1024 ≤ rounded q₂
    · rw [if_neg a, if_pos b]
      rfl
    · rw [if_neg a, if_neg b]
      simpa [jsLeq] using hm

theorem add_nonNeg {x y : JsNumber} (hx : nonNeg x = true) (hy : nonNeg y = true) :
    nonNeg (add x y) = true := by
  rcases nonNeg_cases hx with rfl | ⟨a, ha, rfl⟩ <;>
    rcases nonNeg_cases hy with rfl | ⟨b, hb, rfl⟩ <;>
    simp only [add, nonNeg]
  exact round64_nonNeg (add_nonneg ha hb)

theorem add_mono {x x' y y' : JsNumber} (hx : nonNeg x = true) (hy : nonNeg y = true)
    (hxx : jsLeq x x' = true) (hyy : jsLeq y y' = true) :
    jsLeq (add x y) (add x' y') = true := by
  rcases nonNeg_cases hx with rfl | ⟨a, ha, rfl⟩ <;>
    rcases nonNeg_cases hy with rfl | ⟨b, hb, rfl⟩ <;>
    cases x' <;> cases y' <;>
    simp only [jsLeq, decide_eq_true_eq, Bool.false_eq_true] at hxx hyy <;>
    simp only [add, jsLeq]
  · exact round64_mono (add_nonneg ha hb) (add_le_add hxx hyy)
  all_goals
    have h := round64_nonNeg (add_nonneg ha hb)
    rcases nonNeg_cases h with e | ⟨r, -, e⟩ <;> rw [e]


theorem div_nonNeg {x : JsNumber} {i : ℚ} (hx : nonNeg x = true) (hi : 0 < i) :
    nonNeg (div x (JsNumber.finite i)) = true := by
  rcases nonNeg_cases hx with rfl | ⟨a, ha, rfl⟩
  · simp only [div, if_pos (le_of_lt hi), nonNeg]
  · simp only [div, if_neg (ne_of_gt hi)]
    exact round64_nonNeg (div_nonneg ha (le_of_lt hi))

theorem div_mono_left {x x' : JsNumber} {i : ℚ} (hx : nonNeg x = true)
    (hxx : jsLeq x x' = true) (hi : 0 < i) :
    jsLeq (div x (JsNumber.finite i)) (div x' (JsNumber.finite i)) = true := by
  rcases nonNeg_cases hx with rfl | ⟨a, ha, rfl⟩ <;>
    cases x' <;>
    simp only [jsLeq, decide_eq_true_eq, Bool.false_eq_true] at hxx <;>
    simp only [div, if_pos (le_of_lt hi), if_neg (ne_of_gt hi), jsLeq]
  · exact round64_mono (div_nonneg ha (le_of_lt hi))
      (div_le_div_of_nonneg_right hxx (le_of_lt hi))
  · have h := round64_nonNeg (div_nonneg ha (le_of_lt hi))
    rcases nonNeg_cases h with e | ⟨r, -, e⟩ <;> rw [e]

theorem div_anti_right {x : JsNumber} {i₁ i₂ : ℚ} (hx : nonNeg x = true) (h1 : 0 < i₁)
    (h : i₁ ≤ i₂) :
    jsLeq (div x (JsNumber.finite i₂)) (div x (JsNumber.finite i₁)) = true := by
  have h2 : 0 < i₂ := lt_of_lt_of_le h1 h
  rcases nonNeg_cases hx with rfl | ⟨a, ha, rfl⟩
  · simp only [div, if_pos (le_of_lt h1), if_pos (le_of_lt h2), jsLeq]
  · simp only [div, if_neg (ne_of_gt h1), if_neg (ne_of_gt h2)]
    exact round64_mono (div_nonneg ha (le_of_lt h2)) (div_le_div_of_nonneg_left ha h1 h)

theorem mul_nonNeg {x : JsNumber} {k : ℚ} (hx : nonNeg x = true) (hk : 0 < k) :
    nonNeg (mul x (JsNumber.finite k)) = true := by
  rcases nonNeg_cases hx with rfl | ⟨a, ha, rfl⟩
  · simp only [mul, if_neg (ne_of_gt hk), if_pos hk, nonNeg]
  · simp only [mul]
    exact round64_nonNeg (mul_nonneg ha (le_of_lt hk))

theorem mul_mono_left {x x' : JsNumber} {k : ℚ} (hx : nonNeg x = true)
    (hxx : jsLeq x x' = true) (hk : 0 < k) :
    jsLeq (mul x (JsNumber.finite k)) (mul x' (JsNumber.finite k)) = true := by
  rcases nonNeg_cases hx with rfl | ⟨a, ha, rfl⟩ <;>
    cases x' <;>
    simp only [jsLeq, decide_eq_true_eq, Bool.false_eq_true] at hxx <;>
    simp only [mul, if_neg (ne_of_gt hk), if_pos hk, jsLeq]
  · exact round64_mono (mul_nonneg ha (le_of_lt hk))
      (mul_le_mul_of_nonneg_right hxx (le_of_lt hk))
  · have h := round64_nonNeg (mul_nonneg ha (le_of_lt hk))
    rcases nonNeg_cases h with e | ⟨r, -, e⟩ <;> rw [e]

theorem finite_nonNeg {a : ℚ} (h : 0 ≤ a) : nonNeg (JsNumber.finite a) = true := by
  simpa [nonNeg] using h

theorem finite_leq {a b : ℚ} (h : a ≤ b) :
    jsLeq (JsNumber.finite a) (JsNumber.finite b) = true := by
  simpa [jsLeq] using h

/-- The term the flag contributes to the sum. -/
theorem flagTerm_nonNeg (d : FormInputs) (h : 0 ≤ d.newMortgagePayment) :
    nonNeg (if d.includeNewMortgage = true then JsNumber.finite d.newMortgagePayment
      else JsNumber.finite 0) = true := by
  split_ifs
  · exact finite_nonNeg h
  · exact finite_nonNeg (le_refl 0)

theorem totalDebts_nonNeg (d : FormInputs) (h : ∀ f : DebtField, 0 ≤ getDebt d f) :
    nonNeg (totalDebts d) = true := by
  have h1 := h DebtField.currentRentMortgage
  have h2 := h DebtField.newMortgagePayment
  have h3 := h DebtField.carPayment
  have h4 := h DebtField.creditCards
  have h5 := h DebtField.studentLoans
  have h6 := h DebtField.personalLoans
  have h7 := h DebtField.otherDebts
  simp only [getDebt] at h1 h2 h3 h4 h5 h6 h7
  unfold totalDebts
  exact add_nonNeg (add_nonNeg (add_nonNeg (add_nonNeg (add_nonNeg (add_nonNeg
    (finite_nonNeg h1) (flagTerm_nonNeg d h2)) (finite_nonNeg h3)) (finite_nonNeg h4))
    (finite_nonNeg h5)) (finite_nonNeg h6)) (finite_nonNeg h7)

theorem totalDebts_mono (d d' : FormInputs) (h : ∀ f : DebtField, 0 ≤ getDebt d f)
    (hle : ∀ f : DebtField, getDebt d f ≤ getDebt d' f)
    (hflag : d'.includeNewMortgage = d.includeNewMortgage) :
    jsLeq (totalDebts d) (totalDebts d') = true := by
  have h1 := h DebtField.currentRentMortgage
  have h2 := h DebtField.newMortgagePayment
  have h3 := h DebtField.carPayment
  have h4 := h DebtField.creditCards
  have h5 := h DebtField.studentLoans
  have h6 := h DebtField.personalLoans
  have h7 := h DebtField.otherDebts
  have l1 := hle DebtField.currentRentMortgage
  have l2 := hle DebtField.newMortgagePayment
  have l3 := hle DebtField.carPayment
  have l4 := hle DebtField.creditCards
  have l5 := hle DebtField.studentLoans
  have l6 := hle DebtField.personalLoans
  have l7 := hle DebtField.otherDebts
  simp only [getDebt] at h1 h2 h3 h4 h5 h6 h7 l1 l2 l3 l4 l5 l6 l7
  have hterm : jsLeq
      (if d.includeNewMortgage = true then JsNumber.finite d.newMortgagePayment
        else JsNumber.finite 0)
      (if d'.includeNewMortgage = true then JsNumber.finite d'.newMortgagePayment
        else JsNumber.finite 0) = true := by
    rw [hflag]
    split_ifs
    · exact finite_leq l2
    · exact finite_leq (le_refl 0)
  have n1 := finite_nonNeg h1
  have n2 := flagTerm_nonNeg d h2
  have s2 := add_nonNeg n1 n2
  have s3 := add_nonNeg s2 (finite_nonNeg h3)
  have s4 := add_nonNeg s3 (finite_nonNeg h4)
  have s5 := add_nonNeg s4 (finite_nonNeg h5)
  have s6 := add_nonNeg s5 (finite_nonNeg h6)
  unfold totalDebts
  exact add_mono s6 (finite_nonNeg h7)
    (add_mono s5 (finite_nonNeg h6)
      (add_mono s4 (finite_nonNeg h5)
        (add_mono s3 (finite_nonNeg h4)
          (add_mono s2 (finite_nonNeg h3)
            (add_mono n1 n2 (finite_leq l1) hterm) (finite_leq l3))
          (finite_leq l4))
        (finite_leq l5))
      (finite_leq l6))
    (finite_leq l7)

theorem onSubmit_nonNeg (d : FormInputs) (h : accepted d = true) :
    nonNeg (div (totalDebts d) (JsNumber.finite d.monthlyGrossIncome)) = true ∧
    nonNeg (onSubmit d) = true := by
  have hpos := income_pos_of_accepted d h
  have hT := totalDebts_nonNeg d (debts_nonneg_of_accepted d h)
  have hD := div_nonNeg hT hpos
  exact ⟨hD, mul_nonNeg hD (by norm_num)⟩

theorem handleSubmit_accepted (prev : Option JsNumber) (d : FormInputs)
    (h : accepted d = true) : handleSubmit prev d = some (onSubmit d) := by
  have hs : schema d = Except.ok d := by
    unfold schema
    rw [(schema_eq_ok_iff d).mp h]
  unfold handleSubmit
  rw [hs]

end Binary64

/-! ### Evaluating and bounding the rounding -/

namespace Binary64

theorem log_eq_of_bounds {q : ℚ} {k : ℤ} (hq : 0 < q) (h1 : (2 : ℚ) ^ k ≤ q)
    (h2 : q < 2 ^ (k + 1)) : Int.log 2 |q| = k := by
  rw [abs_of_pos hq]
  have a : k ≤ Int.log 2 q := by
    rw [← Int.zpow_le_iff_le_log (b := 2) (by norm_num) hq]
    exact_mod_cast h1
  have b : Int.log 2 q < k + 1 := by
    rw [← Int.lt_zpow_iff_log_lt (b := 2) (by norm_num) hq]
    exact_mod_cast h2
  omega

theorem ulpExponent_eq {q : ℚ} {k : ℤ} (hq : 0 < q) (h1 : (2 : ℚ) ^ k ≤ q)
    (h2 : q < 2 ^ (k + 1)) (hn : -1022 ≤ k) : ulpExponent q = k - 52 := by
  unfold ulpExponent
  rw [log_eq_of_bounds hq h1 h2, max_eq_left hn]

/-- The value of `round64` at a positive `q` of the normal range, from the
exponent `k` of `q` and the rounded mantissa `m`. -/
theorem round64_eval {q : ℚ} {k m : ℤ} (hq : 0 < q) (h1 : (2 : ℚ) ^ k ≤ q)
    (h2 : q < 2 ^ (k + 1)) (hn : -1022 ≤ k)
    (hm : roundHalfEven (q / 2 ^ (k - 52)) = m)
    (hov : (m : ℚ) * 2 ^ (k - 52) < 2 ^ 1024) :
    round64 q = JsNumber.finite ((m : ℚ) * 2 ^ (k - 52)) := by
  have hr : rounded q = (m : ℚ) * 2 ^ (k - 52) := by
    unfold rounded
    rw [ulpExponent_eq hq h1 h2 hn, hm]
  rw [round64_of_nonneg (le_of_lt hq), hr, if_neg (not_le.mpr hov)]

/-- Every natural number below `2 ^ 53` is a binary64 value. -/
theorem representable_natCast (n : ℕ) (h : n < 2 ^ 53) : representable (n : ℚ) := by
  unfold representable
  rcases Nat.eq_zero_or_pos n with h0 | hpos
  · rw [h0]
    simpa using round64_zero
  have hq : (0 : ℚ) < n := by exact_mod_cast hpos
  have hk1 : (2 : ℚ) ^ Int.log 2 (n : ℚ) ≤ n := by
    have := Int.zpow_log_le_self (b := 2) (r := (n : ℚ)) (by norm_num) hq
    exact_mod_cast this
  have hk2 : (n : ℚ) < 2 ^ (Int.log 2 (n : ℚ) + 1) := by
    have := Int.lt_zpow_succ_log_self (b := 2) (by norm_num) (n : ℚ)
    exact_mod_cast this
  have hk0 : 0 ≤ Int.log 2 (n : ℚ) := by
    rw [← Int.zpow_le_iff_le_log (b := 2) (by norm_num) hq]
    have : (1 : ℚ) ≤ n := by exact_mod_cast hpos
    simpa using this
  have hk52 : Int.log 2 (n : ℚ) < 53 := by
    rw [← Int.lt_zpow_iff_log_lt (b := 2) (by norm_num) hq]
    have : (n : ℚ) < 2 ^ 53 := by exact_mod_cast h
    exact_mod_cast this
  obtain ⟨j, hj⟩ : ∃ j : ℕ, (j : ℤ) = 52 - Int.log 2 (n : ℚ) :=
    ⟨(52 - Int.log 2 (n : ℚ)).toNat, Int.toNat_of_nonneg (by omega)⟩
  have hexp : Int.log 2 (n : ℚ) - 52 = -(j : ℤ) := by omega
  have hscaled : (n : ℚ) / 2 ^ (Int.log 2 (n : ℚ) - 52) = (((n * 2 ^ j : ℕ) : ℤ) : ℚ) := by
    rw [hexp, zpow_neg, zpow_natCast, div_inv_eq_mul]
    push_cast
    ring
  have hm : roundHalfEven ((n : ℚ) / 2 ^ (Int.log 2 (n : ℚ) - 52)) = ((n * 2 ^ j : ℕ) : ℤ) := by
    rw [hscaled, roundHalfEven_intCast]
  have hval : ((((n * 2 ^ j : ℕ) : ℤ)) : ℚ) * 2 ^ (Int.log 2 (n : ℚ) - 52) = n := by
    rw [hexp, zpow_neg, zpow_natCast]
    push_cast
    field_simp
  have hov : ((((n * 2 ^ j : ℕ) : ℤ)) : ℚ) * 2 ^ (Int.log 2 (n : ℚ) - 52) < 2 ^ 1024 := by
    rw [hval]
    have : (n : ℚ) < 2 ^ 53 := by exact_mod_cast h
    exact lt_trans this (by norm_num)
  rw [round64_eval hq hk1 hk2 (by omega) hm hov, hval]

/-- In the normal range rounding changes a value by at most the fraction
`2 ^ (-53)` of it. -/
theorem rounded_sub_le {q : ℚ} (hq : (2 : ℚ) ^ (-1022 : ℤ) ≤ q) :
    |rounded q - q| ≤ q * 2 ^ (-53 : ℤ) := by
  have hpos : 0 < q := lt_of_lt_of_le (two_zpow_pos _) hq
  have hk : -1022 ≤ Int.log 2 |q| := by
    rw [abs_of_pos hpos, ← Int.zpow_le_iff_le_log (b := 2) (by norm_num) hpos]
    exact_mod_cast hq
  have hlog : (2 : ℚ) ^ Int.log 2 |q| ≤ q := by
    have := Int.zpow_log_le_self (b := 2) (r := |q|) (by norm_num) (abs_pos.mpr (ne_of_gt hpos))
    rw [abs_of_pos hpos] at this ⊢
    exact_mod_cast this
  have hE : ulpExponent q = Int.log 2 |q| - 52 := by
    unfold ulpExponent
    rw [max_eq_left hk]
  have hscale : q / 2 ^ ulpExponent q * 2 ^ ulpExponent q = q :=
    div_mul_cancel₀ q (ne_of_gt (two_zpow_pos _))
  have hdiff : rounded q - q =
      ((roundHalfEven (q / 2 ^ ulpExponent q) : ℚ) - q / 2 ^ ulpExponent q) *
        2 ^ ulpExponent q := by
    unfold rounded
    rw [sub_mul, hscale]
  rw [hdiff, abs_mul, abs_of_pos (two_zpow_pos _)]
  have hhalf := roundHalfEven_sub_le (q / 2 ^ ulpExponent q)
  have hstep : |(roundHalfEven (q / 2 ^ ulpExponent q) : ℚ) - q / 2 ^ ulpExponent q| *
      2 ^ ulpExponent q ≤ 1 / 2 * 2 ^ ulpExponent q :=
    mul_le_mul_of_nonneg_right hhalf (le_of_lt (two_zpow_pos _))
  refine le_trans hstep ?_
  have hsplit : (1 / 2 : ℚ) * 2 ^ ulpExponent q = 2 ^ Int.log 2 |q| * 2 ^ (-53 : ℤ) := by
    rw [hE, show Int.log 2 |q| - 52 = Int.log 2 |q| + (-52) by ring,
      zpow_add₀ (by norm_num : (2 : ℚ) ≠ 0)]
    norm_num
    ring
  rw [hsplit]
  exact mul_le_mul_of_nonneg_right hlog (le_of_lt (two_zpow_pos _))

end Binary64

/-! ### Values at the records used below -/

namespace Binary64

theorem jsLt_self (x : JsNumber) : jsLt x x = false := by
  cases x <;> simp [jsLt]

/-- A result that reaches `2 ^ 1024` is stored as `Infinity`. -/
theorem round64_overflow {q : ℚ} (h : (2 : ℚ) ^ 1024 ≤ q) : round64 q = JsNumber.posInf := by
  have hpos : (0 : ℚ) < 2 ^ 1024 := by positivity
  have hq : 0 < q := lt_of_lt_of_le hpos h
  have hE : ulpExponent ((2 : ℚ) ^ 1024) = 1024 - 52 :=
    ulpExponent_eq hpos (by norm_num) (by norm_num) (by norm_num)
  have hr : rounded ((2 : ℚ) ^ 1024) = 2 ^ 1024 := by
    unfold rounded
    rw [hE]
    have hs : (2 : ℚ) ^ 1024 / 2 ^ ((1024 : ℤ) - 52) = (((2 ^ 52 : ℤ)) : ℚ) := by norm_num
    rw [hs, roundHalfEven_intCast]
    norm_num
  have hm := rounded_mono (le_of_lt hpos) h
  rw [hr] at hm
  rw [round64_of_nonneg (le_of_lt hq), if_pos hm]

/-- Integers below `2 ^ 53` add without rounding. -/
theorem add_natCast (a b : ℕ) (h : a + b < 2 ^ 53) :
    add (JsNumber.finite a) (JsNumber.finite b) = JsNumber.finite ((a + b : ℕ) : ℚ) := by
  have := representable_natCast (a + b) h
  unfold representable at this
  simp only [add]
  rw [← this]
  push_cast
  rfl

theorem round64_038 :
    round64 (1900 / 5000) = JsNumber.finite (3422735716801577 / 9007199254740992) := by
  have h := round64_eval (q := 1900 / 5000) (k := -2) (m := 6845471433603154)
    (by norm_num) (by norm_num) (by norm_num) (by norm_num)
    (roundHalfEven_eq_of_lt (by norm_num) (by norm_num)) (by norm_num)
  rw [h]
  norm_num

theorem round64_38 :
    round64 (3422735716801577 / 9007199254740992 * 100) = JsNumber.finite 38 := by
  have h := round64_eval (q := 3422735716801577 / 9007199254740992 * 100) (k := 5)
    (m := 5348024557502464)
    (by norm_num) (by norm_num) (by norm_num) (by norm_num)
    (roundHalfEven_eq_of_lt (by norm_num) (by norm_num)) (by norm_num)
  rw [h]
  norm_num

theorem round64_0375 : round64 (1500 / 4000) = JsNumber.finite (3 / 8) := by
  have h := round64_eval (q := 1500 / 4000) (k := -2) (m := 6755399441055744)
    (by norm_num) (by norm_num) (by norm_num) (by norm_num)
    (roundHalfEven_eq_of_lt (by norm_num) (by norm_num)) (by norm_num)
  rw [h]
  norm_num

theorem round64_375 : round64 (3 / 8 * 100) = JsNumber.finite (75 / 2) := by
  have h := round64_eval (q := 3 / 8 * 100) (k := 5) (m := 5277655813324800)
    (by norm_num) (by norm_num) (by norm_num) (by norm_num)
    (roundHalfEven_eq_of_lt (by norm_num) (by norm_num)) (by norm_num)
  rw [h]
  norm_num

theorem round64_third :
    round64 (1 / 3) = JsNumber.finite (6004799503160661 / 18014398509481984) := by
  have h := round64_eval (q := 1 / 3) (k := -2) (m := 6004799503160661)
    (by norm_num) (by norm_num) (by norm_num) (by norm_num)
    (roundHalfEven_eq_of_lt (by norm_num) (by norm_num)) (by norm_num)
  rw [h]
  norm_num

theorem round64_third_times :
    round64 (6004799503160661 / 18014398509481984 * 100) =
      JsNumber.finite (2345624805922133 / 70368744177664) := by
  have h := round64_eval (q := 6004799503160661 / 18014398509481984 * 100) (k := 5)
    (m := 4691249611844266)
    (by norm_num) (by norm_num) (by norm_num) (by norm_num)
    (roundHalfEven_eq_of_lt (by norm_num) (by norm_num)) (by norm_num)
  rw [h]
  norm_num

theorem round64_two_pow_53 :
    round64 9007199254740992 = JsNumber.finite 9007199254740992 := by
  have h := round64_eval (q := 9007199254740992) (k := 53) (m := 4503599627370496)
    (by norm_num) (by norm_num) (by norm_num) (by norm_num)
    (roundHalfEven_eq_of_lt (by norm_num) (by norm_num)) (by norm_num)
  rw [h]
  norm_num

theorem round64_two_pow_53_succ :
    round64 (9007199254740992 + 1) = JsNumber.finite 9007199254740992 := by
  have h := round64_eval (q := 9007199254740992 + 1) (k := 53) (m := 4503599627370496)
    (by norm_num) (by norm_num) (by norm_num) (by norm_num)
    (roundHalfEven_eq_of_tie (by norm_num) (by norm_num)) (by norm_num)
  rw [h]
  norm_num

theorem round64_inv_income_a :
    round64 (1 / 8000000000000002) =
      JsNumber.finite (5070602400912916 * 2 ^ (-105 : ℤ)) := by
  have h := round64_eval (q := 1 / 8000000000000002) (k := -53) (m := 5070602400912916)
    (by norm_num) (by norm_num) (by norm_num) (by norm_num)
    (roundHalfEven_eq_of_lt (by norm_num) (by norm_num)) (by norm_num)
  rw [h]
  norm_num

theorem round64_inv_income_b :
    round64 (1 / 8000000000000003) =
      JsNumber.finite (5070602400912916 * 2 ^ (-105 : ℤ)) := by
  have h := round64_eval (q := 1 / 8000000000000003) (k := -53) (m := 5070602400912916)
    (by norm_num) (by norm_num) (by norm_num) (by norm_num)
    (roundHalfEven_eq_of_lt (by norm_num) (by norm_num)) (by norm_num)
  rw [h]
  norm_num

theorem round64_boundary_quotient :
    round64 (2482666346134975 / 6896295405930486) =
      JsNumber.finite (3242591731706757 / 9007199254740992) := by
  have h := round64_eval (q := 2482666346134975 / 6896295405930486) (k := -2)
    (m := 6485183463413514)
    (by norm_num) (by norm_num) (by norm_num) (by norm_num)
    (roundHalfEven_eq_of_lt (by norm_num) (by norm_num)) (by norm_num)
  rw [h]
  norm_num

theorem round64_boundary_ratio :
    round64 (3242591731706757 / 9007199254740992 * 100) = JsNumber.finite 36 := by
  have h := round64_eval (q := 3242591731706757 / 9007199254740992 * 100) (k := 5)
    (m := 5066549580791808)
    (by norm_num) (by norm_num) (by norm_num) (by norm_num)
    (roundHalfEven_eq_of_lt (by norm_num) (by norm_num)) (by norm_num)
  rw [h]
  norm_num

theorem round64_two_pow_1023 : round64 (2 ^ 1023) = JsNumber.finite (2 ^ 1023) := by
  have h := round64_eval (q := 2 ^ 1023) (k := 1023) (m := 4503599627370496)
    (by norm_num) (by norm_num) (by norm_num) (by norm_num)
    (roundHalfEven_eq_of_lt (by norm_num) (by norm_num)) (by norm_num)
  rw [h]
  norm_num

end Binary64

/-! ### What the handler stores -/

namespace Binary64

theorem representable_of_eq_nat {q : ℚ} (n : ℕ) (hq : q = n) (h : n < 2 ^ 53) :
    representable q := by
  rw [hq]
  exact representable_natCast n h

/-- A record whose only debt is a rent that is a binary64 value: the sum is that
rent. -/
theorem totalDebts_only_rent (d : FormInputs) (hr : representable d.currentRentMortgage)
    (hflag : d.includeNewMortgage = false) (h3 : d.carPayment = 0) (h4 : d.creditCards = 0)
    (h5 : d.studentLoans = 0) (h6 : d.personalLoans = 0) (h7 : d.otherDebts = 0) :
    totalDebts d = JsNumber.finite d.currentRentMortgage := by
  unfold representable at hr
  unfold totalDebts
  rw [hflag, h3, h4, h5, h6, h7]
  simp only [Bool.false_eq_true, if_false, add, add_zero, hr]

/-- A record of natural amounts whose total stays below `2 ^ 53`: the sum is
exact. -/
theorem totalDebts_natCast (d : FormInputs) (a1 a2 a3 a4 a5 a6 a7 : ℕ)
    (h1 : d.currentRentMortgage = a1) (h2 : d.newMortgagePayment = a2)
    (h3 : d.carPayment = a3) (h4 : d.creditCards = a4) (h5 : d.studentLoans = a5)
    (h6 : d.personalLoans = a6) (h7 : d.otherDebts = a7)
    (hs : a1 + a2 + a3 + a4 + a5 + a6 + a7 < 2 ^ 53) :
    totalDebts d = JsNumber.finite (DebtWise.totalDebts d) := by
  unfold totalDebts DebtWise.totalDebts
  rw [h1, h2, h3, h4, h5, h6, h7]
  cases d.includeNewMortgage
  · simp only [Bool.false_eq_true, if_false]
    rw [show (JsNumber.finite 0) = JsNumber.finite ((0 : ℕ) : ℚ) by norm_num,
      add_natCast a1 0 (by omega), add_natCast (a1 + 0) a3 (by omega),
      add_natCast (a1 + 0 + a3) a4 (by omega), add_natCast (a1 + 0 + a3 + a4) a5 (by omega),
      add_natCast (a1 + 0 + a3 + a4 + a5) a6 (by omega),
      add_natCast (a1 + 0 + a3 + a4 + a5 + a6) a7 (by omega)]
    push_cast
    rfl
  · simp only [if_true]
    rw [add_natCast a1 a2 (by omega), add_natCast (a1 + a2) a3 (by omega),
      add_natCast (a1 + a2 + a3) a4 (by omega), add_natCast (a1 + a2 + a3 + a4) a5 (by omega),
      add_natCast (a1 + a2 + a3 + a4 + a5) a6 (by omega),
      add_natCast (a1 + a2 + a3 + a4 + a5 + a6) a7 (by omega)]
    push_cast
    rfl

theorem onSubmit_scenarioA : onSubmit scenarioA = JsNumber.finite 38 := by
  have hT : totalDebts scenarioA = JsNumber.finite 1900 := by
    rw [totalDebts_natCast scenarioA 1200 0 300 150 200 0 50 (by norm_num [scenarioA])
      (by norm_num [scenarioA]) (by norm_num [scenarioA]) (by norm_num [scenarioA])
      (by norm_num [scenarioA]) (by norm_num [scenarioA]) (by norm_num [scenarioA])
      (by norm_num)]
    norm_num [DebtWise.totalDebts, scenarioA]
  have hI : scenarioA.monthlyGrossIncome = 5000 := rfl
  unfold onSubmit
  rw [hT, hI]
  simp only [div]
  rw [if_neg (by norm_num), round64_038]
  simp only [mul]
  rw [round64_38]

theorem onSubmit_scenarioB : onSubmit scenarioB = JsNumber.finite (75 / 2) := by
  have hT : totalDebts scenarioB = JsNumber.finite 1500 := by
    rw [totalDebts_natCast scenarioB 1000 500 0 0 0 0 0 (by norm_num [scenarioB])
      (by norm_num [scenarioB]) (by norm_num [scenarioB]) (by norm_num [scenarioB])
      (by norm_num [scenarioB]) (by norm_num [scenarioB]) (by norm_num [scenarioB])
      (by norm_num)]
    norm_num [DebtWise.totalDebts, scenarioB]
  have hI : scenarioB.monthlyGrossIncome = 4000 := rfl
  unfold onSubmit
  rw [hT, hI]
  simp only [div]
  rw [if_neg (by norm_num), round64_0375]
  simp only [mul]
  rw [round64_375]

/-- No debts at all: the stored ratio is 0 for every non-zero income. -/
theorem onSubmit_of_total_zero (d : FormInputs) (hT : totalDebts d = JsNumber.finite 0)
    (hI : d.monthlyGrossIncome ≠ 0) : onSubmit d = JsNumber.finite 0 := by
  unfold onSubmit
  rw [hT]
  simp only [div]
  rw [if_neg hI, zero_div, round64_zero]
  simp only [mul]
  rw [zero_mul, round64_zero]

theorem totalDebts_of_no_debt (d : FormInputs) (h : ∀ f : DebtField, getDebt d f = 0) :
    totalDebts d = JsNumber.finite 0 := by
  have z1 := h DebtField.currentRentMortgage
  have z2 := h DebtField.newMortgagePayment
  have z3 := h DebtField.carPayment
  have z4 := h DebtField.creditCards
  have z5 := h DebtField.studentLoans
  have z6 := h DebtField.personalLoans
  have z7 := h DebtField.otherDebts
  simp only [getDebt] at z1 z2 z3 z4 z5 z6 z7
  unfold totalDebts
  rw [z1, z2, z3, z4, z5, z6, z7]
  simp only [ite_self, add, add_zero, round64_zero]

theorem onSubmit_recordThird :
    onSubmit recordThird = JsNumber.finite (2345624805922133 / 70368744177664) := by
  have hT : totalDebts recordThird = JsNumber.finite 1 :=
    totalDebts_only_rent recordThird (representable_of_eq_nat 1 (by norm_num [recordThird])
      (by norm_num)) rfl rfl rfl rfl rfl rfl
  have hI : recordThird.monthlyGrossIncome = 3 := rfl
  unfold onSubmit
  rw [hT, hI]
  simp only [div]
  rw [if_neg (by norm_num), round64_third]
  simp only [mul]
  rw [round64_third_times]

theorem onSubmit_recordOverflow : onSubmit recordOverflow = JsNumber.posInf := by
  have hT : totalDebts recordOverflow = JsNumber.finite (2 ^ 1023) :=
    totalDebts_only_rent recordOverflow round64_two_pow_1023 rfl rfl rfl rfl rfl rfl
  have hI : recordOverflow.monthlyGrossIncome = 1 := rfl
  unfold onSubmit
  rw [hT, hI]
  simp only [div]
  rw [if_neg (by norm_num), div_one, round64_two_pow_1023]
  simp only [mul]
  exact round64_overflow (by norm_num)

end Binary64

/-! ### Validation: the reported keys -/

/-- C5 at the failing input: an income of one half (greater than 0) with a car
payment of -1 and all else valid.  The only key that violates its bound is the
car payment, yet the schema reports two errors, the income first.  Apart from
the income, the report is as the claim says: for every record a debt key is in
error exactly when its value is negative, and the income key exactly when the
income is below 1. -/
theorem schema_reports_income_below_one :
    allKeys.filter (violatesSpecBound recordHalfNegCar) = [FieldName.carPayment] ∧
    errorFields recordHalfNegCar = [FieldName.monthlyGrossIncome, FieldName.carPayment] ∧
    schema recordHalfNegCar =
      Except.error [⟨FieldName.monthlyGrossIncome, "Income must be greater than 0"⟩,
        ⟨FieldName.carPayment, "Must be 0 or greater"⟩] ∧
    (∀ (d : FormInputs) (f : DebtField), f.key ∈ errorFields d ↔ getDebt d f < 0) ∧
    (∀ d : FormInputs,
      FieldName.monthlyGrossIncome ∈ errorFields d ↔ d.monthlyGrossIncome < 1) := by
  refine ⟨?_, ?_, ?_, ?_, ?_⟩
  · norm_num [allKeys, List.filter, violatesSpecBound, recordHalfNegCar]
  · rw [errorFields_unfold]
    norm_num [recordHalfNegCar]
  · norm_num [schema, schemaIssues, numberMin, booleanCheck, recordHalfNegCar]
  · intro d f
    rw [errorFields_unfold]
    cases f <;>
      simp [List.mem_append, mem_ite_singleton, DebtField.key, getDebt]
  · intro d
    rw [errorFields_unfold]
    simp [List.mem_append, mem_ite_singleton]

/-! ### The stored ratio -/

/-- C2 as stated fails: with income 3 and a rent of 1 the handler stores
33.33333333333333 (the binary64 value 2345624805922133 / 2 ^ 46), not one third
times 100; with income 1 and a rent of `2 ^ 1023` it stores `Infinity`.  Both
records hold binary64 values only. -/
theorem onSubmit_third_not_exact :
    Binary64.wellFormed recordThird ∧ 0 < recordThird.monthlyGrossIncome ∧
    Binary64.onSubmit recordThird =
      JsNumber.finite (2345624805922133 / 70368744177664) ∧
    Binary64.onSubmit recordThird ≠
      JsNumber.finite (totalDebts recordThird / recordThird.monthlyGrossIncome * 100) ∧
    Binary64.wellFormed recordOverflow ∧ 0 < recordOverflow.monthlyGrossIncome ∧
    Binary64.onSubmit recordOverflow = JsNumber.posInf := by
  have z : Binary64.representable (0 : ℚ) :=
    Binary64.representable_of_eq_nat 0 (by norm_num) (by norm_num)
  refine ⟨⟨?_, ?_, z, z, z, z, z, z⟩, by norm_num [recordThird],
    Binary64.onSubmit_recordThird, ?_, ⟨?_, ?_, z, z, z, z, z, z⟩,
    by norm_num [recordOverflow], Binary64.onSubmit_recordOverflow⟩
  · exact Binary64.representable_of_eq_nat 3 (by norm_num [recordThird]) (by norm_num)
  · exact Binary64.representable_of_eq_nat 1 (by norm_num [recordThird]) (by norm_num)
  · rw [Binary64.onSubmit_recordThird]
    norm_num [totalDebts, recordThird]
  · exact Binary64.representable_of_eq_nat 1 (by norm_num [recordOverflow]) (by norm_num)
  · exact Binary64.round64_two_pow_1023

/-- C2 as amended: with a positive income, a stored total `S` that is not
negative and a quotient `S / income` that is 0 or in the normal range, the
handler stores either `Infinity` (overflow) or a finite ratio that differs from
`S / income * 100` by at most the fraction `2 ^ (-51)` of it: the two roundings
of binary64 arithmetic and no rounding to decimals. -/
theorem onSubmit_ratio_rounded (d : FormInputs) (S : ℚ) (h : 0 < d.monthlyGrossIncome)
    (hS : Binary64.totalDebts d = JsNumber.finite S) (h0 : 0 ≤ S)
    (hn : S = 0 ∨ (2 : ℚ) ^ (-1022 : ℤ) ≤ S / d.monthlyGrossIncome) :
    Binary64.onSubmit d = JsNumber.posInf ∨
    ∃ r : ℚ, Binary64.onSubmit d = JsNumber.finite r ∧
      |r - S / d.monthlyGrossIncome * 100| ≤ S / d.monthlyGrossIncome * 100 * 2 ^ (-51 : ℤ) := by
  rcases hn with hz | hn
  · right
    refine ⟨0, ?_, ?_⟩
    · rw [hz] at hS
      exact Binary64.onSubmit_of_total_zero d hS (ne_of_gt h)
    · rw [hz]
      simp
  have hq0 : 0 ≤ S / d.monthlyGrossIncome := div_nonneg h0 (le_of_lt h)
  have hu : (2 : ℚ) ^ (-53 : ℤ) = 1 / 9007199254740992 := by norm_num
  have hmin : (0 : ℚ) < 2 ^ (-1022 : ℤ) := Binary64.two_zpow_pos _
  unfold Binary64.onSubmit
  rw [hS]
  simp only [Binary64.div]
  rw [if_neg (ne_of_gt h), Binary64.round64_of_nonneg hq0]
  by_cases ho : (2 : ℚ) ^ 1024 ≤ Binary64.rounded (S / d.monthlyGrossIncome)
  · left
    rw [if_pos ho]
    simp only [Binary64.mul]
    norm_num
  rw [if_neg ho]
  simp only [Binary64.mul]
  have e1 := Binary64.rounded_sub_le hn
  rw [abs_le, hu] at e1
  have hx0 : 0 ≤ Binary64.rounded (S / d.monthlyGrossIncome) := Binary64.rounded_nonneg hq0
  have hx : (2 : ℚ) ^ (-1022 : ℤ) ≤ Binary64.rounded (S / d.monthlyGrossIncome) * 100 := by
    nlinarith [e1.1, e1.2]
  have hx100 : 0 ≤ Binary64.rounded (S / d.monthlyGrossIncome) * 100 :=
    mul_nonneg hx0 (by norm_num)
  rw [Binary64.round64_of_nonneg hx100]
  by_cases ho2 : (2 : ℚ) ^ 1024 ≤ Binary64.rounded (Binary64.rounded (S / d.monthlyGrossIncome) * 100)
  · left
    rw [if_pos ho2]
  right
  rw [if_neg ho2]
  refine ⟨_, rfl, ?_⟩
  have e2 := Binary64.rounded_sub_le hx
  rw [abs_le, hu] at e2
  have hv : (2 : ℚ) ^ (-51 : ℤ) = 1 / 2251799813685248 := by norm_num
  rw [abs_le, hv]
  constructor <;> nlinarith [e1.1, e1.2, e2.1, e2.2]

/-- C2 as amended, at the second scenario (total 1500, income 4000), and the
values of the three scenarios: 38, 37.5 and 0. -/
theorem onSubmit_ratio_rounded_witness :
    (0 < scenarioB.monthlyGrossIncome ∧
      Binary64.totalDebts scenarioB = JsNumber.finite 1500 ∧
      (Binary64.onSubmit scenarioB = JsNumber.posInf ∨
        ∃ r : ℚ, Binary64.onSubmit scenarioB = JsNumber.finite r ∧
          |r - 1500 / scenarioB.monthlyGrossIncome * 100| ≤
            1500 / scenarioB.monthlyGrossIncome * 100 * 2 ^ (-51 : ℤ))) ∧
    Binary64.onSubmit scenarioA = JsNumber.finite 38 ∧
    Binary64.onSubmit scenarioB = JsNumber.finite (75 / 2) ∧
    Binary64.onSubmit scenarioC = JsNumber.finite 0 := by
  have hI : 0 < scenarioB.monthlyGrossIncome := by norm_num [scenarioB]
  have hT : Binary64.totalDebts scenarioB = JsNumber.finite 1500 := by
    rw [Binary64.totalDebts_natCast scenarioB 1000 500 0 0 0 0 0 (by norm_num [scenarioB])
      (by norm_num [scenarioB]) (by norm_num [scenarioB]) (by norm_num [scenarioB])
      (by norm_num [scenarioB]) (by norm_num [scenarioB]) (by norm_num [scenarioB])
      (by norm_num)]
    norm_num [totalDebts, scenarioB]
  refine ⟨⟨hI, hT, onSubmit_ratio_rounded scenarioB 1500 hI hT (by norm_num)
    (Or.inr (by norm_num [scenarioB]))⟩, Binary64.onSubmit_scenarioA,
    Binary64.onSubmit_scenarioB, ?_⟩
  exact Binary64.onSubmit_of_total_zero scenarioC
    (Binary64.totalDebts_of_no_debt scenarioC (fun f => by cases f <;> rfl))
    (by norm_num [scenarioC])

/-- C6: every record the schema accepts has a strictly positive income and no
negative debt field, so the divisor of the division in `onSubmit` is not zero;
its quotient and the stored ratio are a non-negative number or `Infinity`
(overflow), never `NaN`, and the handler stores that ratio. -/
theorem accepted_division_defined (d : FormInputs) (h : accepted d = true) :
    0 < d.monthlyGrossIncome ∧
    d.monthlyGrossIncome ≠ 0 ∧
    (∀ f : DebtField, 0 ≤ getDebt d f) ∧
    Binary64.nonNeg
      (Binary64.div (Binary64.totalDebts d) (JsNumber.finite d.monthlyGrossIncome)) = true ∧
    Binary64.nonNeg (Binary64.onSubmit d) = true ∧
    Binary64.onSubmit d ≠ JsNumber.nan ∧
    (∀ prev : Option JsNumber,
      Binary64.handleSubmit prev d = some (Binary64.onSubmit d)) := by
  have hpos : 0 < d.monthlyGrossIncome := income_pos_of_accepted d h
  obtain ⟨hD, hR⟩ := Binary64.onSubmit_nonNeg d h
  exact ⟨hpos, ne_of_gt hpos, debts_nonneg_of_accepted d h, hD, hR,
    Binary64.nonNeg_ne_nan hR, fun prev => Binary64.handleSubmit_accepted prev d h⟩

/-- C6, at the first scenario of the specification. -/
theorem accepted_division_defined_witness :
    accepted scenarioA = true ∧ 0 < scenarioA.monthlyGrossIncome ∧
    Binary64.onSubmit scenarioA ≠ JsNumber.nan ∧
    Binary64.handleSubmit none scenarioA = some (JsNumber.finite 38) := by
  have h : accepted scenarioA = true := by
    rw [accepted_iff]
    norm_num [scenarioA]
  obtain ⟨hpos, -, -, -, -, hnan, hh⟩ := accepted_division_defined scenarioA h
  refine ⟨h, hpos, hnan, ?_⟩
  rw [hh none, Binary64.onSubmit_scenarioA]

/-! ### Monotonicity of the stored ratio -/

namespace Binary64

theorem round64_absorbed_quotient :
    round64 (9007199254740992 / 1000000) =
      JsNumber.finite (4722366482869645 / 524288) := by
  have h := round64_eval (q := 9007199254740992 / 1000000) (k := 33)
    (m := 4722366482869645)
    (by norm_num) (by norm_num) (by norm_num) (by norm_num)
    (roundHalfEven_eq_of_lt (by norm_num) (by norm_num)) (by norm_num)
  rw [h]
  norm_num

theorem round64_absorbed_ratio :
    round64 (4722366482869645 / 524288 * 100) =
      JsNumber.finite (1844674407370955 / 2048) := by
  have h := round64_eval (q := 4722366482869645 / 524288 * 100) (k := 39)
    (m := 7378697629483820)
    (by norm_num) (by norm_num) (by norm_num) (by norm_num)
    (roundHalfEven_eq_of_lt (by norm_num) (by norm_num)) (by norm_num)
  rw [h]
  norm_num

theorem totalDebts_recordAbsorbed :
    totalDebts recordAbsorbed = JsNumber.finite 9007199254740992 :=
  totalDebts_only_rent recordAbsorbed round64_two_pow_53 rfl rfl rfl rfl rfl rfl

theorem totalDebts_recordAbsorbed_car :
    totalDebts (setDebt recordAbsorbed DebtField.carPayment 1) =
      JsNumber.finite 9007199254740992 := by
  have e : totalDebts (setDebt recordAbsorbed DebtField.carPayment 1) =
    add (add (add (add (add (add (JsNumber.finite 9007199254740992) (JsNumber.finite 0))
      (JsNumber.finite 1)) (JsNumber.finite 0)) (JsNumber.finite 0)) (JsNumber.finite 0))
      (JsNumber.finite 0) := rfl
  have a0 : ∀ x : ℚ, round64 x = JsNumber.finite x →
      add (JsNumber.finite x) (JsNumber.finite 0) = JsNumber.finite x := by
    intro x hx
    simp only [add, add_zero, hx]
  have a1 : add (JsNumber.finite 9007199254740992) (JsNumber.finite 1) =
      JsNumber.finite 9007199254740992 := round64_two_pow_53_succ
  rw [e, a0 _ round64_two_pow_53, a1, a0 _ round64_two_pow_53, a0 _ round64_two_pow_53,
    a0 _ round64_two_pow_53, a0 _ round64_two_pow_53]

theorem onSubmit_recordAbsorbed :
    onSubmit recordAbsorbed = JsNumber.finite (1844674407370955 / 2048) := by
  have hI : recordAbsorbed.monthlyGrossIncome = 1000000 := rfl
  unfold onSubmit
  rw [totalDebts_recordAbsorbed, hI]
  simp only [div]
  rw [if_neg (by norm_num), round64_absorbed_quotient]
  simp only [mul]
  rw [round64_absorbed_ratio]

theorem onSubmit_recordAbsorbed_car :
    onSubmit (setDebt recordAbsorbed DebtField.carPayment 1) =
      JsNumber.finite (1844674407370955 / 2048) := by
  have hI : (setDebt recordAbsorbed DebtField.carPayment 1).monthlyGrossIncome = 1000000 := rfl
  unfold onSubmit
  rw [totalDebts_recordAbsorbed_car, hI]
  simp only [div]
  rw [if_neg (by norm_num), round64_absorbed_quotient]
  simp only [mul]
  rw [round64_absorbed_ratio]

theorem getDebt_le_setDebt (d : FormInputs) (f : DebtField) (w : ℚ) (h : getDebt d f ≤ w)
    (g : DebtField) : getDebt d g ≤ getDebt (setDebt d f w) g := by
  cases f <;> cases g <;> first
    | exact h
    | exact le_refl _

theorem onSubmit_mono_total {d d' : FormInputs} (hd : accepted d = true)
    (hI : d'.monthlyGrossIncome = d.monthlyGrossIncome)
    (hT : jsLeq (totalDebts d) (totalDebts d') = true) :
    jsLeq (onSubmit d) (onSubmit d') = true := by
  have hpos := income_pos_of_accepted d hd
  have hN := totalDebts_nonNeg d (debts_nonneg_of_accepted d hd)
  unfold onSubmit
  rw [hI]
  exact mul_mono_left (div_nonNeg hN hpos) (div_mono_left hN hT hpos) (by norm_num)

theorem onSubmit_anti_income {d : FormInputs} {i : ℚ} (hd : accepted d = true)
    (hlt : d.monthlyGrossIncome ≤ i) :
    jsLeq (onSubmit (setIncome d i)) (onSubmit d) = true := by
  have hpos := income_pos_of_accepted d hd
  have hN := totalDebts_nonNeg d (debts_nonneg_of_accepted d hd)
  have hT : totalDebts (setIncome d i) = totalDebts d := rfl
  have hI : (setIncome d i).monthlyGrossIncome = i := rfl
  unfold onSubmit
  rw [hT, hI]
  exact mul_mono_left (div_nonNeg hN (lt_of_lt_of_le hpos hlt))
    (div_anti_right hN hpos hlt) (by norm_num)

theorem onSubmit_recordLargeIncome_eq :
    onSubmit (setIncome recordLargeIncome 8000000000000003) = onSubmit recordLargeIncome := by
  have hT : totalDebts recordLargeIncome = JsNumber.finite 1 :=
    totalDebts_only_rent recordLargeIncome
      (representable_of_eq_nat 1 (by norm_num [recordLargeIncome]) (by norm_num))
      rfl rfl rfl rfl rfl rfl
  have hT' : totalDebts (setIncome recordLargeIncome 8000000000000003) = JsNumber.finite 1 := hT
  have hI : recordLargeIncome.monthlyGrossIncome = 8000000000000002 := rfl
  have hI' : (setIncome recordLargeIncome 8000000000000003).monthlyGrossIncome =
      8000000000000003 := rfl
  unfold onSubmit
  rw [hT, hT', hI, hI']
  simp only [div]
  rw [if_neg (by norm_num), if_neg (by norm_num), round64_inv_income_a, round64_inv_income_b]

theorem onSubmit_recordBoundary : onSubmit recordBoundary = JsNumber.finite 36 := by
  have hT : totalDebts recordBoundary = JsNumber.finite 2482666346134975 :=
    totalDebts_only_rent recordBoundary
      (representable_of_eq_nat 2482666346134975 (by norm_num [recordBoundary]) (by norm_num))
      rfl rfl rfl rfl rfl rfl
  have hI : recordBoundary.monthlyGrossIncome = 6896295405930486 := rfl
  unfold onSubmit
  rw [hT, hI]
  simp only [div]
  rw [if_neg (by norm_num), round64_boundary_quotient]
  simp only [mul]
  rw [round64_boundary_ratio]

end Binary64

/-- C7 as stated fails: with income 1000000 and a rent of 9007199254740992
(`2 ^ 53`), raising the car payment from 0 to 1 leaves the sum at `2 ^ 53`
(the sum `2 ^ 53 + 1` rounds back), so both records store the ratio
900719925474.0991 and the second is not strictly larger.  Both records hold
binary64 values only and are accepted, and the car payment is an included
field. -/
theorem ratio_debt_not_strict :
    Binary64.wellFormed recordAbsorbed ∧
    Binary64.wellFormed (setDebt recordAbsorbed DebtField.carPayment 1) ∧
    accepted recordAbsorbed = true ∧
    accepted (setDebt recordAbsorbed DebtField.carPayment 1) = true ∧
    included recordAbsorbed DebtField.carPayment = true ∧
    getDebt recordAbsorbed DebtField.carPayment < 1 ∧
    Binary64.onSubmit recordAbsorbed = JsNumber.finite (1844674407370955 / 2048) ∧
    Binary64.onSubmit (setDebt recordAbsorbed DebtField.carPayment 1) =
      JsNumber.finite (1844674407370955 / 2048) ∧
    jsLt (Binary64.onSubmit recordAbsorbed)
      (Binary64.onSubmit (setDebt recordAbsorbed DebtField.carPayment 1)) = false := by
  have z : Binary64.representable (0 : ℚ) :=
    Binary64.representable_of_eq_nat 0 (by norm_num) (by norm_num)
  have one : Binary64.representable (1 : ℚ) :=
    Binary64.representable_of_eq_nat 1 (by norm_num) (by norm_num)
  have inc : Binary64.representable (1000000 : ℚ) :=
    Binary64.representable_of_eq_nat 1000000 (by norm_num) (by norm_num)
  have big : Binary64.representable (9007199254740992 : ℚ) := Binary64.round64_two_pow_53
  refine ⟨⟨inc, big, z, z, z, z, z, z⟩, ⟨inc, big, z, one, z, z, z, z⟩, ?_, ?_, rfl, ?_,
    Binary64.onSubmit_recordAbsorbed, Binary64.onSubmit_recordAbsorbed_car, ?_⟩
  · rw [accepted_iff]
    norm_num [recordAbsorbed]
  · rw [accepted_iff]
    norm_num [recordAbsorbed, setDebt]
  · norm_num [getDebt, recordAbsorbed]
  · rw [Binary64.onSubmit_recordAbsorbed, Binary64.onSubmit_recordAbsorbed_car]
    exact Binary64.jsLt_self _

/-- C7 as amended: for an accepted record (its income is positive) and any debt
field, in particular an included one, the record that differs only by a larger
value of that field is accepted too, both stored ratios are a non-negative
number or `Infinity`, and the ratio of the second is not smaller. -/
theorem ratio_mono_debt (d : FormInputs) (f : DebtField) (w : ℚ)
    (hacc : accepted d = true) (hlt : getDebt d f < w) :
    accepted (setDebt d f w) = true ∧
    (setDebt d f w).monthlyGrossIncome = d.monthlyGrossIncome ∧
    (setDebt d f w).includeNewMortgage = d.includeNewMortgage ∧
    Binary64.nonNeg (Binary64.onSubmit d) = true ∧
    Binary64.nonNeg (Binary64.onSubmit (setDebt d f w)) = true ∧
    jsLeq (Binary64.onSubmit d) (Binary64.onSubmit (setDebt d f w)) = true := by
  have hI : (setDebt d f w).monthlyGrossIncome = d.monthlyGrossIncome := by
    cases f <;> rfl
  have hF : (setDebt d f w).includeNewMortgage = d.includeNewMortgage := by
    cases f <;> rfl
  have hacc' := accepted_setDebt d f w hacc hlt
  have hT := Binary64.totalDebts_mono d (setDebt d f w) (debts_nonneg_of_accepted d hacc)
    (Binary64.getDebt_le_setDebt d f w (le_of_lt hlt)) hF
  exact ⟨hacc', hI, hF, (Binary64.onSubmit_nonNeg d hacc).2,
    (Binary64.onSubmit_nonNeg _ hacc').2, Binary64.onSubmit_mono_total hacc hI hT⟩

/-- C7 as amended, at the first scenario with the car payment raised from 300
to 400. -/
theorem ratio_mono_debt_witness :
    accepted scenarioA = true ∧ getDebt scenarioA DebtField.carPayment < 400 ∧
    jsLeq (Binary64.onSubmit scenarioA)
      (Binary64.onSubmit (setDebt scenarioA DebtField.carPayment 400)) = true := by
  have h : accepted scenarioA = true := by
    rw [accepted_iff]
    norm_num [scenarioA]
  have hl : getDebt scenarioA DebtField.carPayment < 400 := by
    norm_num [getDebt, scenarioA]
  exact ⟨h, hl, (ratio_mono_debt scenarioA DebtField.carPayment 400 h hl).2.2.2.2.2⟩

/-- C8 as stated fails: with no debts at all, the incomes 10000 and 20000 both
store the ratio 0; and with a rent of 1 (a positive total), the incomes
8000000000000002 and 8000000000000003 store the same ratio, because the two
quotients round to the same binary64 value.  All four records hold binary64
values only and are accepted. -/
theorem ratio_income_not_strict :
    (¬ ∀ (d : FormInputs) (i : ℚ), accepted d = true → accepted (setIncome d i) = true →
        d.monthlyGrossIncome < i →
        jsLt (Binary64.onSubmit (setIncome d i)) (Binary64.onSubmit d) = true) ∧
    Binary64.wellFormed scenarioC ∧ Binary64.wellFormed (setIncome scenarioC 20000) ∧
    Binary64.onSubmit scenarioC = JsNumber.finite 0 ∧
    Binary64.onSubmit (setIncome scenarioC 20000) = JsNumber.finite 0 ∧
    Binary64.wellFormed recordLargeIncome ∧
    Binary64.wellFormed (setIncome recordLargeIncome 8000000000000003) ∧
    accepted recordLargeIncome = true ∧
    accepted (setIncome recordLargeIncome 8000000000000003) = true ∧
    Binary64.totalDebts recordLargeIncome = JsNumber.finite 1 ∧
    Binary64.onSubmit (setIncome recordLargeIncome 8000000000000003) =
      Binary64.onSubmit recordLargeIncome ∧
    jsLt (Binary64.onSubmit (setIncome recordLargeIncome 8000000000000003))
      (Binary64.onSubmit recordLargeIncome) = false := by
  have z : Binary64.representable (0 : ℚ) :=
    Binary64.representable_of_eq_nat 0 (by norm_num) (by norm_num)
  have one : Binary64.representable (1 : ℚ) :=
    Binary64.representable_of_eq_nat 1 (by norm_num) (by norm_num)
  have e1 : Binary64.onSubmit scenarioC = JsNumber.finite 0 :=
    Binary64.onSubmit_of_total_zero scenarioC
      (Binary64.totalDebts_of_no_debt scenarioC (fun f => by cases f <;> rfl))
      (by norm_num [scenarioC])
  have e2 : Binary64.onSubmit (setIncome scenarioC 20000) = JsNumber.finite 0 :=
    Binary64.onSubmit_of_total_zero _
      (Binary64.totalDebts_of_no_debt _ (fun f => by cases f <;> rfl))
      (by norm_num [scenarioC, setIncome])
  have h1 : accepted scenarioC = true := by
    rw [accepted_iff]
    norm_num [scenarioC]
  have h2 : accepted (setIncome scenarioC 20000) = true := by
    rw [accepted_iff]
    norm_num [scenarioC, setIncome]
  refine ⟨?_, ⟨?_, z, z, z, z, z, z, z⟩, ⟨?_, z, z, z, z, z, z, z⟩, e1, e2,
    ⟨?_, one, z, z, z, z, z, z⟩, ⟨?_, one, z, z, z, z, z, z⟩, ?_, ?_, ?_,
    Binary64.onSubmit_recordLargeIncome_eq, ?_⟩
  · intro hall
    have hlt := hall scenarioC 20000 h1 h2 (by norm_num [scenarioC])
    rw [e1, e2] at hlt
    simp [jsLt] at hlt
  · exact Binary64.representable_of_eq_nat 10000 (by norm_num [scenarioC]) (by norm_num)
  · exact Binary64.representable_of_eq_nat 20000 (by norm_num [setIncome]) (by norm_num)
  · exact Binary64.representable_of_eq_nat 8000000000000002
      (by norm_num [recordLargeIncome]) (by norm_num)
  · exact Binary64.representable_of_eq_nat 8000000000000003
      (by norm_num [setIncome]) (by norm_num)
  · rw [accepted_iff]
    norm_num [recordLargeIncome]
  · rw [accepted_iff]
    norm_num [recordLargeIncome, setIncome]
  · exact Binary64.totalDebts_only_rent recordLargeIncome
      (Binary64.representable_of_eq_nat 1 (by norm_num [recordLargeIncome]) (by norm_num))
      rfl rfl rfl rfl rfl rfl
  · rw [Binary64.onSubmit_recordLargeIncome_eq]
    exact Binary64.jsLt_self _

/-- C8 as amended: for two accepted records with identical debt fields and flag
that differ only in the income, both stored ratios are a non-negative number or
`Infinity`, and the ratio of the record with the larger income is not larger;
when the stored total is 0 both ratios are 0. -/
theorem ratio_anti_income (d : FormInputs) (i : ℚ)
    (hacc : accepted d = true) (hacc2 : accepted (setIncome d i) = true)
    (hlt : d.monthlyGrossIncome < i) :
    Binary64.totalDebts (setIncome d i) = Binary64.totalDebts d ∧
    Binary64.nonNeg (Binary64.onSubmit d) = true ∧
    Binary64.nonNeg (Binary64.onSubmit (setIncome d i)) = true ∧
    jsLeq (Binary64.onSubmit (setIncome d i)) (Binary64.onSubmit d) = true ∧
    (Binary64.totalDebts d = JsNumber.finite 0 →
      Binary64.onSubmit (setIncome d i) = JsNumber.finite 0 ∧
      Binary64.onSubmit d = JsNumber.finite 0) := by
  have hpos : 0 < d.monthlyGrossIncome := income_pos_of_accepted d hacc
  have hpos2 : 0 < (setIncome d i).monthlyGrossIncome := income_pos_of_accepted _ hacc2
  refine ⟨rfl, (Binary64.onSubmit_nonNeg d hacc).2, (Binary64.onSubmit_nonNeg _ hacc2).2,
    Binary64.onSubmit_anti_income hacc (le_of_lt hlt), ?_⟩
  intro hz
  exact ⟨Binary64.onSubmit_of_total_zero (setIncome d i) hz (ne_of_gt hpos2),
    Binary64.onSubmit_of_total_zero d hz (ne_of_gt hpos)⟩

/-- C8 as amended, at the first scenario with the income raised from 5000 to
10000. -/
theorem ratio_anti_income_witness :
    accepted scenarioA = true ∧ accepted (setIncome scenarioA 10000) = true ∧
    scenarioA.monthlyGrossIncome < 10000 ∧
    jsLeq (Binary64.onSubmit (setIncome scenarioA 10000)) (Binary64.onSubmit scenarioA) =
      true := by
  have h1 : accepted scenarioA = true := by
    rw [accepted_iff]
    norm_num [scenarioA]
  have h2 : accepted (setIncome scenarioA 10000) = true := by
    rw [accepted_iff]
    norm_num [scenarioA, setIncome]
  have h3 : scenarioA.monthlyGrossIncome < 10000 := by norm_num [scenarioA]
  exact ⟨h1, h2, h3, (ratio_anti_income scenarioA 10000 h1 h2 h3).2.2.2.1⟩

/-! ### The whole pipeline -/

/-- C10 as stated fails: with income 6896295405930486 and a rent of
2482666346134975 (binary64 values, accepted, summed without rounding),
`100 * total` exceeds `36 * income`, so the claim gives "Fair"; the handler
stores exactly 36 and the label is "Good". -/
theorem pipeline_boundary_rounds_to_good :
    Binary64.wellFormed recordBoundary ∧ accepted recordBoundary = true ∧
    Binary64.totalDebts recordBoundary = JsNumber.finite (totalDebts recordBoundary) ∧
    36 * recordBoundary.monthlyGrossIncome < 100 * totalDebts recordBoundary ∧
    Binary64.handleSubmit none recordBoundary = some (JsNumber.finite 36) ∧
    getRatioClassification (JsNumber.finite 36) = "Good" ∧
    ¬ (getRatioClassification (Binary64.onSubmit recordBoundary) = "Good" ↔
        100 * totalDebts recordBoundary ≤ 36 * recordBoundary.monthlyGrossIncome) := by
  have z : Binary64.representable (0 : ℚ) :=
    Binary64.representable_of_eq_nat 0 (by norm_num) (by norm_num)
  have hacc : accepted recordBoundary = true := by
    rw [accepted_iff]
    norm_num [recordBoundary]
  have hrent : Binary64.representable recordBoundary.currentRentMortgage :=
    Binary64.representable_of_eq_nat 2482666346134975 (by norm_num [recordBoundary])
      (by norm_num)
  have hgood : getRatioClassification (JsNumber.finite 36) = "Good" := by
    rw [getRatioClassification_finite]
    norm_num
  have hexact : 36 * recordBoundary.monthlyGrossIncome < 100 * totalDebts recordBoundary := by
    norm_num [totalDebts, recordBoundary]
  refine ⟨⟨?_, hrent, z, z, z, z, z, z⟩, hacc, ?_, hexact, ?_, hgood, ?_⟩
  · exact Binary64.representable_of_eq_nat 6896295405930486
      (by norm_num [recordBoundary]) (by norm_num)
  · rw [Binary64.totalDebts_only_rent recordBoundary hrent rfl rfl rfl rfl rfl rfl]
    norm_num [totalDebts, recordBoundary]
  · rw [Binary64.handleSubmit_accepted none recordBoundary hacc,
      Binary64.onSubmit_recordBoundary]
  · rw [Binary64.onSubmit_recordBoundary]
    intro hiff
    exact absurd (hiff.mp hgood) (not_le.mpr hexact)

/-- C10 as amended: for every accepted record the handler stores the ratio
computed in binary64, which is a non-negative number or `Infinity`; the label
is "Good" exactly when the stored ratio is at most 36, "Fair" exactly when it is
above 36 and at most 43, "Poor" exactly when it is above 43 (`Infinity`
included); a record whose debts are all zero stores 0 and is "Good". -/
theorem pipeline_classification (d : FormInputs) (h : accepted d = true) :
    (∀ prev : Option JsNumber,
      Binary64.handleSubmit prev d = some (Binary64.onSubmit d)) ∧
    Binary64.nonNeg (Binary64.onSubmit d) = true ∧
    ((Binary64.onSubmit d = JsNumber.posInf ∧
        getRatioClassification (Binary64.onSubmit d) = "Poor") ∨
      ∃ r : ℚ, 0 ≤ r ∧ Binary64.onSubmit d = JsNumber.finite r ∧
        (getRatioClassification (Binary64.onSubmit d) = "Good" ↔ r ≤ 36) ∧
        (getRatioClassification (Binary64.onSubmit d) = "Fair" ↔ 36 < r ∧ r ≤ 43) ∧
        (getRatioClassification (Binary64.onSubmit d) = "Poor" ↔ 43 < r)) ∧
    ((∀ f : DebtField, getDebt d f = 0) →
      Binary64.onSubmit d = JsNumber.finite 0 ∧
      getRatioClassification (Binary64.onSubmit d) = "Good") := by
  have hpos : 0 < d.monthlyGrossIncome := income_pos_of_accepted d h
  have hN := (Binary64.onSubmit_nonNeg d h).2
  refine ⟨fun prev => Binary64.handleSubmit_accepted prev d h, hN, ?_, ?_⟩
  · rcases Binary64.nonNeg_cases hN with e | ⟨r, hr, e⟩
    · left
      refine ⟨e, ?_⟩
      rw [e]
      simp [getRatioClassification, jsLe]
    · right
      refine ⟨r, hr, e, ?_⟩
      rw [e]
      obtain ⟨hG, hF, hP, -⟩ := getRatioClassification_cases r
      exact ⟨hG, hF, hP⟩
  · intro hz
    have e := Binary64.onSubmit_of_total_zero d (Binary64.totalDebts_of_no_debt d hz)
      (ne_of_gt hpos)
    refine ⟨e, ?_⟩
    rw [e, getRatioClassification_finite]
    norm_num

/-- C10 as amended, at the three scenarios: 38 and "Fair", 37.5 and "Fair", 0
and "Good". -/
theorem pipeline_classification_witness :
    (accepted scenarioA = true ∧
      Binary64.handleSubmit none scenarioA = some (JsNumber.finite 38) ∧
      getRatioClassification (JsNumber.finite 38) = "Fair") ∧
    (accepted scenarioB = true ∧
      Binary64.handleSubmit none scenarioB = some (JsNumber.finite (75 / 2)) ∧
      getRatioClassification (JsNumber.finite (75 / 2)) = "Fair") ∧
    (accepted scenarioC = true ∧
      Binary64.handleSubmit none scenarioC = some (JsNumber.finite 0) ∧
      getRatioClassification (JsNumber.finite 0) = "Good") := by
  have hA : accepted scenarioA = true := by
    rw [accepted_iff]
    norm_num [scenarioA]
  have hB : accepted scenarioB = true := by
    rw [accepted_iff]
    norm_num [scenarioB]
  have hC : accepted scenarioC = true := by
    rw [accepted_iff]
    norm_num [scenarioC]
  refine ⟨⟨hA, ?_, ?_⟩, ⟨hB, ?_, ?_⟩, ⟨hC, ?_, ?_⟩⟩
  · rw [(pipeline_classification scenarioA hA).1 none, Binary64.onSubmit_scenarioA]
  · rw [getRatioClassification_finite]
    norm_num
  · rw [(pipeline_classification scenarioB hB).1 none, Binary64.onSubmit_scenarioB]
  · rw [getRatioClassification_finite]
    norm_num
  · rw [(pipeline_classification scenarioC hC).1 none,
      ((pipeline_classification scenarioC hC).2.2.2 (fun f => by cases f <;> rfl)).1]
  · have hz := ((pipeline_classification scenarioC hC).2.2.2 (fun f => by cases f <;> rfl))
    rw [hz.1] at hz
    exact hz.2

end DebtWise
